/-
Verification development for the sunnytabbies media-pipeline scripts.

Shallow embedding of the Python sources:
  - src/video_analysis/merge_content_with_analysis.py
  - src/video_analysis/analyze_videos_with_gemini.py
  - src/video_analysis/video_utils.py
  - src/file_scan_utils.py

JSON documents are modelled by the inductive type `JVal` (JSON numbers are
modelled as integers; no non-integral number appears in any position that the
verified properties depend on).  Python dicts loaded from JSON are modelled as
insertion-ordered association lists with string keys, matching CPython dict
semantics (updating an existing key keeps its position, new keys are appended).
External effects (filesystem, subprocesses, the Gemini API) are modelled as
explicit oracle inputs; the functions below follow the Python control flow on
those inputs.
-/
import Mathlib

namespace SunnyTabbies

/-- JSON values (Python objects produced by `json.loads`).  Numbers are
modelled as `Int`. -/
inductive JVal where
  | null : JVal
  | bool : Bool → JVal
  | num : Int → JVal
  | str : String → JVal
  | arr : List JVal → JVal
  | obj : List (String × JVal) → JVal

instance : Inhabited JVal := ⟨JVal.null⟩

/-- A Python dict with string keys, as an insertion-ordered association list. -/
abbrev Dict := List (String × JVal)

/-- Models `d.get(k)` / `d[k]` lookup: first binding of `k`. -/
def dget : Dict → String → Option JVal
  | [], _ => none
  | (k', v) :: rest, k => if k' = k then some v else dget rest k

/-- Models `d[k] = v` assignment: replaces the binding in place, else appends
(CPython insertion-order semantics). -/
def dset : Dict → String → JVal → Dict
  | [], k, v => [(k, v)]
  | (k', v') :: rest, k, v =>
    if k' = k then (k, v) :: rest else (k', v') :: dset rest k v

/-- Python truthiness of a JSON-loaded value. -/
def pyTruthy : JVal → Bool
  | .null => false
  | .bool b => b
  | .num n => n ≠ 0
  | .str s => s ≠ ""
  | .arr xs => !xs.isEmpty
  | .obj kvs => !kvs.isEmpty

/-- Truthiness of `d.get(k)` (`None` when the key is absent, which is falsy). -/
def getTruthy (d : Dict) (k : String) : Bool :=
  match dget d k with
  | some v => pyTruthy v
  | none => false

/-! ### Python string primitives

Implemented over `List Char` so that every function evaluates by definitional
unfolding.  They model the CPython `str` methods on the ASCII fragment (the
Unicode-table-driven behaviour of `str.lower`/`str.strip` beyond ASCII is not
reproduced). -/

/-- The characters `str.strip()` removes (ASCII whitespace). -/
def pyIsSpace (c : Char) : Bool :=
  c = ' ' || c = '\t' || c = '\n' || c = '\r' || c = '\x0b' || c = '\x0c'

/-- Models `s.strip()`. -/
def pyStrip (s : String) : String :=
  String.mk (((s.toList.dropWhile pyIsSpace).reverse.dropWhile pyIsSpace).reverse)

/-- Models `s.lower()`. -/
def pyLower (s : String) : String := String.mk (s.toList.map Char.toLower)

/-- Models `s.upper()`. -/
def pyUpper (s : String) : String := String.mk (s.toList.map Char.toUpper)

/-- Models `s.startswith(p)`. -/
def pyStartsWith (s p : String) : Bool :=
  s.toList.take p.toList.length = p.toList

/-- Models `s.endswith(p)`. -/
def pyEndsWith (s p : String) : Bool :=
  (s.toList.reverse.take p.toList.length).reverse = p.toList

/-- Models `str.split(sep)` for a one-character separator, on characters. -/
def splitOnChar (c : Char) : List Char → List (List Char)
  | [] => [[]]
  | a :: rest =>
    if a = c then [] :: splitOnChar c rest
    else
      match splitOnChar c rest with
      | g :: gs => (a :: g) :: gs
      | [] => [[a]]

/-- Models `s.split(c)` as strings. -/
def pySplitOnChar (s : String) (c : Char) : List String :=
  (splitOnChar c s.toList).map String.mk

/-! ### Python `str`/`repr` on JSON-loaded values

Used by the merge script in `[str(x) for x in ...]`.  Container `repr`s use
CPython's layout; string escaping inside `repr` is not reproduced (no verified
property depends on it). -/

/-- A single-quote character, for Python `repr` of strings. -/
def sq : String := String.singleton (Char.ofNat 39)

/-- Python `repr(x)`, with a structural fuel so that the nested recursion
into containers unfolds definitionally; `sizeOf x` fuel always suffices
(containers strictly decrease the size), so the `0` case is unreachable. -/
def pyReprFuel : Nat → JVal → String
  | 0, _ => ""
  | _ + 1, .null => "None"
  | _ + 1, .bool true => "True"
  | _ + 1, .bool false => "False"
  | _ + 1, .num n => toString n
  | _ + 1, .str s => sq ++ s ++ sq
  | fuel + 1, .arr xs =>
    "[" ++ String.intercalate ", " (xs.map (pyReprFuel fuel)) ++ "]"
  | fuel + 1, .obj kvs =>
    "\x7b" ++
      String.intercalate ", "
        (kvs.map (fun kv => sq ++ kv.1 ++ sq ++ ": " ++ pyReprFuel fuel kv.2)) ++
      "\x7d"

mutual

/-- Structural size of a `JVal`, used only as recursion fuel. -/
def jsizeV : JVal → Nat
  | .null => 1
  | .bool _ => 1
  | .num _ => 1
  | .str _ => 1
  | .arr xs => jsizeL xs + 1
  | .obj kvs => jsizeP kvs + 1

def jsizeL : List JVal → Nat
  | [] => 1
  | v :: rest => jsizeV v + jsizeL rest

def jsizeP : List (String × JVal) → Nat
  | [] => 1
  | (_, v) :: rest => jsizeV v + jsizeP rest

end

/-- Python `repr(x)` for a JSON-loaded value (strings get quotes). -/
def pyRepr (v : JVal) : String := pyReprFuel (jsizeV v) v

/-- Python `str(x)` for a JSON-loaded value: the string itself for strings,
`repr` otherwise (which is what `str` prints for the other JSON types). -/
def pyStr : JVal → String
  | .str s => s
  | v => pyRepr v

/-! ### `pathlib.PurePosixPath` name/stem/suffix -/

/-- The components of a POSIX path, as pathlib keeps them: empty components
and `.` components are dropped. -/
def pathParts (s : String) : List String :=
  (pySplitOnChar s '/').filter (fun c => c ≠ "" && c ≠ ".")

/-- Models `Path(s).name`: the final path component (empty for `/`, `.` or ``). -/
def pathName (s : String) : String :=
  (pathParts s).getLastD ""

/-- Index of the last occurrence of `c` in `cs`, if any. -/
def lastIdxOf (cs : List Char) (c : Char) : Option Nat :=
  match cs with
  | [] => none
  | a :: rest =>
    match lastIdxOf rest c with
    | some i => some (i + 1)
    | none => if a = c then some 0 else none

/-- Models `PurePath.stem` applied to a bare name: drop the final extension when the
last dot is neither the first nor the last character. -/
def pyStemName (nm : String) : String :=
  let cs := nm.toList
  match lastIdxOf cs '.' with
  | some i => if 0 < i ∧ i < cs.length - 1 then String.mk (cs.take i) else nm
  | none => nm

/-- Models `PurePath.suffix` applied to a bare name. -/
def pySuffixName (nm : String) : String :=
  let cs := nm.toList
  match lastIdxOf cs '.' with
  | some i => if 0 < i ∧ i < cs.length - 1 then String.mk (cs.drop i) else ""
  | none => ""

/-- Models `Path(s).stem`. -/
def pathStem (s : String) : String := pyStemName (pathName s)

/-- Models `Path(s).suffix`. -/
def pathSuffix (s : String) : String := pySuffixName (pathName s)

/-! ### `urllib.parse`: `urlparse(url).path` and `unquote` -/

/-- Hex digit value, if `c` is a hex digit. -/
def hexVal (c : Char) : Option Nat :=
  if '0' ≤ c ∧ c ≤ '9' then some (c.toNat - '0'.toNat)
  else if 'a' ≤ c ∧ c ≤ 'f' then some (c.toNat - 'a'.toNat + 10)
  else if 'A' ≤ c ∧ c ≤ 'F' then some (c.toNat - 'A'.toNat + 10)
  else none

/-- Models `urllib.parse.unquote` on the characters of a string: a `%` followed by
two hex digits is replaced by the character with that code, anything else is
kept literally.  (CPython additionally UTF-8-decodes runs of escaped bytes;
the single-byte reading used here agrees with it on ASCII escapes, the only
escapes the verified properties can depend on.) -/
def unquoteChars : List Char → List Char
  | [] => []
  | '%' :: h1 :: h2 :: rest =>
    match hexVal h1, hexVal h2 with
    | some a, some b => Char.ofNat (16 * a + b) :: unquoteChars rest
    | _, _ => '%' :: unquoteChars (h1 :: h2 :: rest)
  | c :: rest => c :: unquoteChars rest

def unquote (s : String) : String := String.mk (unquoteChars s.toList)

/-- Characters allowed in a URL scheme after the first (letters, digits,
`+`, `-`, `.`). -/
def isSchemeChar (c : Char) : Bool :=
  c.isAlpha || c.isDigit || c = '+' || c = '-' || c = '.'

/-- Drop a leading `scheme:` when present, as `urllib.parse.urlsplit` does:
the text before the first `:` must be non-empty, start with an ASCII letter
and consist of scheme characters. -/
def dropScheme (url : String) : String :=
  let cs := url.toList
  let beforeColon := cs.takeWhile (fun c => c ≠ ':')
  if beforeColon.length < cs.length ∧ beforeColon ≠ [] ∧
      (beforeColon.headD ' ').isAlpha ∧ beforeColon.all isSchemeChar then
    String.mk (cs.drop (beforeColon.length + 1))
  else url

/-- Index of the first character of `cs` that satisfies `p`, or `cs.length`. -/
def findIdxOrLen (p : Char → Bool) (cs : List Char) : Nat :=
  match cs with
  | [] => 0
  | c :: rest => if p c then 0 else findIdxOrLen p rest + 1

/-- Drop a leading `//netloc` when present: the netloc extends to the next
`/`, `?` or `#`. -/
def dropNetloc (s : String) : String :=
  if pyStartsWith s "//" then
    let rest := (s.drop 2).toList
    String.mk (rest.drop (findIdxOrLen (fun c => c = '/' || c = '?' || c = '#') rest))
  else s

/-- Keep the part of `s` before the first occurrence of `c`. -/
def takeUntilChar (s : String) (c : Char) : String :=
  String.mk (s.toList.takeWhile (fun a => a ≠ c))

/-- Models `urlparse`'s `_splitparams`: drop `;params` from the last path segment. -/
def dropParams (s : String) : String :=
  let cs := s.toList
  let searchFrom :=
    match lastIdxOf cs '/' with
    | some i => i
    | none => 0
  let tail := cs.drop searchFrom
  match lastIdxOf tail ';' with
  | some _ =>
    -- find the FIRST ';' at or after searchFrom
    String.mk (cs.take (searchFrom + findIdxOrLen (fun c => c = ';') tail))
  | none => s

/-- Models `urllib.parse.urlparse(url).path`: strip scheme, netloc, fragment, query
and params, in `urlsplit`'s order. -/
def urlparsePath (url : String) : String :=
  let u1 := dropScheme url
  let u2 := dropNetloc u1
  let u3 := takeUntilChar u2 '#'
  let u4 := takeUntilChar u3 '?'
  dropParams u4

/-! ### merge_content_with_analysis.py -/

/-- The `-poster.<ext>` suffixes recognised by `_derive_asset_key_from_item`. -/
def posterSuffixes : List String :=
  ["-poster.jpg", "-poster.jpeg", "-poster.png", "-poster.webp"]

/-- Strip the first matching poster suffix from `name` (matched on the
lowercased name, stripped from the original by character count), or fall back
to `Path(name).stem`. -/
def stripPosterSuffix (name : String) : String :=
  let low := pyLower name
  match posterSuffixes.find? (fun sfx => pyEndsWith low sfx) with
  | some sfx => String.mk (name.toList.take (name.length - sfx.length))
  | none => pathStem name

/-- Models `_derive_asset_key_from_item`, final fallback branch: the stem of the
`src` filename. -/
def deriveFromSrc (item : Dict) : Option String :=
  match dget item "src" with
  | some (.str sv) =>
    if pyStrip sv ≠ "" then
      let name := pathName (unquote (urlparsePath sv))
      if name ≠ "" then some (pyStemName name) else none
    else none
  | _ => none

/-- Models `_derive_asset_key_from_item`, fallback branch for `item["poster"]` and
`item["src"]`. -/
def deriveFromPosterOrSrc (item : Dict) : Option String :=
  match dget item "poster" with
  | some (.str ps) =>
    if pyStrip ps ≠ "" then
      some (stripPosterSuffix (pathName (unquote (urlparsePath ps))))
    else
      deriveFromSrc item
  | _ => deriveFromSrc item

/-- Models `_derive_asset_key_from_item(item)`. -/
def deriveAssetKeyFromItem (item : Dict) : Option String :=
  match dget item "asset_key" with
  | some (.str k) => if pyStrip k ≠ "" then some (pyStrip k) else deriveFromPosterOrSrc item
  | _ => deriveFromPosterOrSrc item

/-- Models `[str(x) for x in xs if str(x).strip()]`. -/
def strListFilter (xs : List JVal) : List String :=
  (xs.map pyStr).filter (fun s => pyStrip s ≠ "")

/-- Models `_pick_story_details_meta(rec)`: returns `(story, details, meta)`. -/
def pickStoryDetailsMeta (rec : Dict) : String × List String × Option Dict :=
  let story0 :=
    match dget rec "story" with
    | some (.str s) => if pyStrip s ≠ "" then pyStrip s else ""
    | _ => ""
  let details0 :=
    match dget rec "details" with
    | some (.arr xs) => strListFilter xs
    | _ => []
  let a := dget rec "analysis"
  let story1 :=
    match a with
    | some (.obj akvs) =>
      if story0 = "" then
        match dget akvs "main_story" with
        | some (.str m) => pyStrip m
        | _ => story0
      else story0
    | _ => story0
  let details1 :=
    match a with
    | some (.obj akvs) =>
      let d1 :=
        if details0 = [] then
          match dget akvs "kitten_details" with
          | some (.arr xs) => strListFilter xs
          | _ => details0
        else details0
      if d1 = [] then
        match dget akvs "details" with
        | some (.arr xs) => strListFilter xs
        | _ => d1
      else d1
    | _ => details0
  let meta :=
    match dget rec "meta" with
    | some (.obj mkvs) => some mkvs
    | _ =>
      match a with
      | some (.obj akvs) => some akvs
      | _ => none
  (story1, details1, meta)

/-- Models `item.get("type") in ("video", "youtube")`. -/
def typeIsVideoOrYoutube (item : Dict) : Bool :=
  match dget item "type" with
  | some (.str s) => s = "video" || s = "youtube"
  | _ => false

/-- Models `"story" not in item or not str(item.get("story", "")).strip()`. -/
def storyAbsentOrBlank (item : Dict) : Bool :=
  match dget item "story" with
  | none => true
  | some v => pyStrip (pyStr v) = ""

/-- Models `"details" not in item or not isinstance(item.get("details"), list) or
len(item.get("details", [])) == 0`. -/
def detailsAbsentOrEmpty (item : Dict) : Bool :=
  match dget item "details" with
  | none => true
  | some (.arr xs) => xs.isEmpty
  | some _ => true

/-- Models `"analysis" not in item or not isinstance(item.get("analysis"), dict) or
len(item.get("analysis", \x7b\x7d)) == 0`. -/
def analysisAbsentOrEmpty (item : Dict) : Bool :=
  match dget item "analysis" with
  | none => true
  | some (.obj kvs) => kvs.isEmpty
  | some _ => true

/-- The body of the match branch of the merge loop: stamp `asset_key` and
conditionally fill `story`, `details` and `analysis` from the picked record
values (`merge_content_with_analysis`, lines 168-199). -/
def applyUpdate (overwriteExisting : Bool) (assetKey : String) (rec item : Dict) : Dict :=
  let (story, details, meta) := pickStoryDetailsMeta rec
  let item1 := dset item "asset_key" (.str assetKey)
  let item2 :=
    if story ≠ "" ∧ (overwriteExisting || storyAbsentOrBlank item1) then
      dset item1 "story" (.str story)
    else item1
  let item3 :=
    if details ≠ [] ∧ (overwriteExisting || detailsAbsentOrEmpty item2) then
      dset item2 "details" (.arr (details.map JVal.str))
    else item2
  match meta with
  | some m =>
    if !m.isEmpty && (overwriteExisting || analysisAbsentOrEmpty item3) then
      dset item3 "analysis" (.obj m)
    else item3
  | none => item3

/-- Which statistics counter one loop iteration increments. -/
inductive MergeCounter where
  | matched | skipped | missingKey | noMatch
deriving DecidableEq

/-- Merge statistics (`matched`, `skipped`, `missing_key`, `no_match`). -/
structure MergeStats where
  matched : Nat
  skipped : Nat
  missing_key : Nat
  no_match : Nat
deriving DecidableEq

def MergeStats.bump (st : MergeStats) : MergeCounter → MergeStats
  | .matched => { st with matched := st.matched + 1 }
  | .skipped => { st with skipped := st.skipped + 1 }
  | .missingKey => { st with missing_key := st.missing_key + 1 }
  | .noMatch => { st with no_match := st.no_match + 1 }

/-- One iteration of the merge loop, on a dict item: the (possibly updated)
item and the counter incremented. -/
def mergeOne (byAssetKey : Dict) (overwriteExisting : Bool) (item : Dict) :
    Dict × MergeCounter :=
  if !typeIsVideoOrYoutube item then (item, .skipped)
  else
    match deriveAssetKeyFromItem item with
    | none => (item, .missingKey)
    | some k =>
      if k = "" then (item, .missingKey)
      else
        match dget byAssetKey k with
        | some (.obj rec) => (applyUpdate overwriteExisting k rec item, .matched)
        | _ => (item, .noMatch)

/-- The merge loop over the content list.  A non-dict item raises
(`item.get` on a non-dict), modelled by `Except.error`; earlier in-place
updates are then lost with the exception, as in Python (the output file is
only written after the loop). -/
def mergeLoop (byAssetKey : Dict) (overwriteExisting : Bool) :
    List JVal → Except String (List JVal × MergeStats)
  | [] => .ok ([], ⟨0, 0, 0, 0⟩)
  | item :: rest =>
    match item with
    | .obj kvs =>
      let (kvs', ctr) := mergeOne byAssetKey overwriteExisting kvs
      match mergeLoop byAssetKey overwriteExisting rest with
      | .ok (rest', st) => .ok (.obj kvs' :: rest', st.bump ctr)
      | .error e => .error e
    | _ => .error "AttributeError: item is not a dict"

/-- Models `merge_content_with_analysis`, on the parsed contents of the two input
files.  Returns the list written to `out_path` and the statistics dict.
File I/O is modelled away: the caller supplies the parsed JSON documents. -/
def merge_content_with_analysis (content analysisRoot : JVal)
    (overwriteExisting : Bool := false) :
    Except String (List JVal × MergeStats) :=
  match content with
  | .arr items =>
    match analysisRoot with
    | .obj rootKvs =>
      match dget rootKvs "by_asset_key" with
      | some (.obj byAssetKey) => mergeLoop byAssetKey overwriteExisting items
      | _ => .error "TypeError: analysis file must be a dict with key by_asset_key (dict)"
    | _ => .error "TypeError: analysis file must be a dict with key by_asset_key (dict)"
  | _ => .error "TypeError: kittens.json must be a JSON list"

/-! ### file_scan_utils.py -/

/-- Outcome of the `ffprobe` subprocess run in `get_fps_ffprobe`:
normal completion with its stdout, a timeout (`subprocess.TimeoutExpired`),
or any other exception (including `CalledProcessError` from `check=True`). -/
inductive FfprobeOutcome where
  | ok (stdout : String)
  | timeout
  | exn
deriving DecidableEq

/-- An exact (unreduced) fraction, representing a finite Python float value.
Every fraction built by `pyFloat` has a positive denominator; `fracDiv` keeps
the denominator nonzero as long as the divisor's numerator is nonzero, which
`get_fps_ffprobe` guards.  Binary floating-point rounding is not modelled:
values are kept exact. -/
structure Frac where
  num : Int
  den : Int
deriving DecidableEq

/-- The rational value of a fraction. -/
def Frac.toRat (f : Frac) : ℚ := (f.num : ℚ) / (f.den : ℚ)

/-- Models `x == 0.0` for a value with nonzero denominator. -/
def Frac.isZero (f : Frac) : Bool := f.num = 0

/-- Models `x / y` on exact fractions. -/
def fracDiv (a b : Frac) : Frac := ⟨a.num * b.den, a.den * b.num⟩

/-- Consume leading decimal digits: accumulated value, digit count, rest. -/
def takeDigits (acc n : Nat) : List Char → Nat × Nat × List Char
  | [] => (acc, n, [])
  | c :: rest =>
    if c.isDigit then takeDigits (10 * acc + (c.toNat - 48)) (n + 1) rest
    else (acc, n, c :: rest)

/-- Python `float(s)` on the decimal-literal grammar
(`[+-] digits [. digits] [(e|E) [+-] digits]`, surrounding whitespace
allowed), as an exact fraction; `none` when `float` would raise
`ValueError`.  `inf`/`nan` literals and digit-group underscores are not
modelled (they cannot occur in `ffprobe` frame-rate output). -/
def pyFloat (s : String) : Option Frac :=
  let cs := (pyStrip s).toList
  let sgnRest : Int × List Char :=
    match cs with
    | '+' :: r => (1, r)
    | '-' :: r => (-1, r)
    | _ => (1, cs)
  let sgn := sgnRest.1
  let (ip, ipn, cs2) := takeDigits 0 0 sgnRest.2
  let fracRest : Nat × Nat × List Char :=
    match cs2 with
    | '.' :: r => takeDigits 0 0 r
    | _ => (0, 0, cs2)
  let (fp, fpn, cs3) := fracRest
  if ipn + fpn = 0 then none
  else
    let mant : Frac := ⟨sgn * ((ip * 10 ^ fpn + fp : Nat) : Int), ((10 ^ fpn : Nat) : Int)⟩
    match cs3 with
    | [] => some mant
    | e :: r =>
      if e = 'e' ∨ e = 'E' then
        let esgnRest : Bool × List Char :=
          match r with
          | '+' :: rr => (false, rr)
          | '-' :: rr => (true, rr)
          | _ => (false, r)
        let (ev, en, r2) := takeDigits 0 0 esgnRest.2
        if en = 0 ∨ r2 ≠ [] then none
        else if esgnRest.1 then some ⟨mant.num, mant.den * ((10 ^ ev : Nat) : Int)⟩
        else some ⟨mant.num * ((10 ^ ev : Nat) : Int), mant.den⟩
      else none

/-- Models `c in s`. -/
def containsChar (s : String) (c : Char) : Bool := s.toList.contains c

/-- Models `rate.split("/", 1)[0]`: the part before the first `/`. -/
def rateNumS (rate : String) : String :=
  String.mk (rate.toList.takeWhile (fun c => c ≠ '/'))

/-- Models `rate.split("/", 1)[1]`: everything after the first `/` (later slashes
included, `maxsplit=1`). -/
def rateDenS (rate : String) : String :=
  String.mk ((rate.toList.dropWhile (fun c => c ≠ '/')).drop 1)

/-- Models `get_fps_ffprobe`: parse `avg_frame_rate` from the subprocess outcome.
All exceptions (timeout, nonzero exit, unparsable floats) yield `None`; a
`num/den` rate is divided only after the `den == 0` guard. -/
def get_fps_ffprobe : FfprobeOutcome → Option Frac
  | .timeout => none
  | .exn => none
  | .ok out =>
    let rate := pyStrip out
    if rate = "" then none
    else if containsChar rate '/' then
      match pyFloat (rateNumS rate), pyFloat (rateDenS rate) with
      | some num, some den => if den.isZero then none else some (fracDiv num den)
      | _, _ => none
    else pyFloat rate

/-- A filesystem entry as seen by `Path.rglob("*")`: its path, whether it is
a regular file, and its `stat` data. -/
structure FsEntry where
  path : String
  isFile : Bool
  mtime : Int
  size : Int
deriving DecidableEq

/-- One row of the DataFrame built by `scan_files`. -/
structure ScanRow where
  path : String
  name : String
  ext : String
  modified_time : Int
  size_bytes : Int
  fps : Option Frac
  ffprobe_status : String
deriving DecidableEq

def VIDEO_EXTS_DEFAULT : List String :=
  [".mp4", ".mov", ".mkv", ".avi", ".m4v", ".wmv"]

/-- Normalize an extension argument: lower-case, ensure a leading dot. -/
def normalizeExt (e : String) : String :=
  let e' := pyLower e
  if pyStartsWith e' "." then e' else "." ++ e'

/-- The row-building loop of `scan_files` (before the final sort): one row
per regular file whose lower-cased suffix is in `normExts`; `ffprobe` runs
only for `videoExts` suffixes. -/
def scanRows (normExts videoExts : List String)
    (probe : String → FfprobeOutcome) : List FsEntry → List ScanRow
  | [] => []
  | entry :: rest =>
    if !entry.isFile then scanRows normExts videoExts probe rest
    else
      let ext := pyLower (pathSuffix entry.path)
      if !(normExts.contains ext) then scanRows normExts videoExts probe rest
      else
        let fpsStatus : Option Frac × String :=
          if videoExts.contains ext then
            let f := get_fps_ffprobe (probe entry.path)
            (f, if f.isSome then "ok" else "timeout_or_error")
          else (none, "skip")
        { path := entry.path, name := pathName entry.path, ext := ext,
          modified_time := entry.mtime, size_bytes := entry.size,
          fps := fpsStatus.1, ffprobe_status := fpsStatus.2 } ::
          scanRows normExts videoExts probe rest

/-- Lexicographic code-point comparison of character lists (Python `<` on
strings). -/
def charsLt : List Char → List Char → Bool
  | [], [] => false
  | [], _ :: _ => true
  | _ :: _, [] => false
  | a :: as, b :: bs =>
    if a.toNat < b.toNat then true
    else if b.toNat < a.toNat then false
    else charsLt as bs

/-- Python `<` on strings. -/
def pyStrLt (a b : String) : Bool := charsLt a.toList b.toList

/-- Models `df.sort_values(["ext", "modified_time", "name"], kind="stable")`
comparator. -/
def rowLe (a b : ScanRow) : Bool :=
  if a.ext ≠ b.ext then pyStrLt a.ext b.ext
  else if a.modified_time ≠ b.modified_time then
    decide (a.modified_time < b.modified_time)
  else !pyStrLt b.name a.name

/-- Insert `x` after every element `y` with `le y x` (stable insertion). -/
def insertSorted (le : α → α → Bool) (x : α) : List α → List α
  | [] => [x]
  | y :: rest => if le y x then y :: insertSorted le x rest else x :: y :: rest

/-- Stable sort (pandas `kind="stable"` mergesort produces exactly the
stable sort of the rows under the comparator; the algorithm is modelled by
stable insertion, which computes the same function on a total preorder). -/
def stableSort (le : α → α → Bool) (l : List α) : List α :=
  l.foldl (fun acc x => insertSorted le x acc) []

/-- Models `scan_files(dir, exts, ...)`: the filesystem traversal is modelled by
the explicit entry list `entries` (the order `rglob` yields them), the
`ffprobe` subprocess by `probe`.  `video_exts or set(VIDEO_EXTS_DEFAULT)`
makes an empty or omitted argument fall back to the default (Python `or` on a
falsy value).  Progress printing and the failure log are side effects with
no influence on the returned DataFrame and are not modelled. -/
def scan_files (entries : List FsEntry) (exts : List String)
    (probe : String → FfprobeOutcome) (videoExts : List String := []) :
    List ScanRow :=
  let ve := if videoExts.isEmpty then VIDEO_EXTS_DEFAULT else videoExts
  let normExts := exts.map normalizeExt
  stableSort rowLe (scanRows normExts ve probe entries)

/-! ### analyze_videos_with_gemini.py and video_utils.py

The pipeline's external effects are supplied by oracles: for each input path a
`PathWorld` fixes the outcomes of the shrink subprocess, the upload, the file
state polled by `wait_until_ready`, and the `generate_content` call.
`load_dotenv`, the environment-variable overrides of `Config`, `mkdir`,
client construction, console printing and `_normalize_paths`
(`expanduser().resolve()`, which never changes the final filename outside of
symlink tricks) are modelled as identity / not modelled.  The run is traced
as a list of events so that ordering properties can be stated. -/

/-- The fields of `Config` the modelled control flow reads.  The ffmpeg
shrink settings only shape the subprocess command line, whose outcome the
world supplies. -/
structure Config where
  tempDir : String
  modelId : String
  uploadPollS : Nat
  processingMaxWaitS : Nat
  deleteUploadedFiles : Bool

/-- Models `VideoAnalysis.status` literals. -/
inductive VAStatus where
  | clear
  | inconclusive
  | multipleSubjects
deriving DecidableEq

def VAStatus.toStr : VAStatus → String
  | .clear => "clear"
  | .inconclusive => "inconclusive"
  | .multipleSubjects => "multiple_subjects"

/-- The pydantic `VideoAnalysis` response schema. -/
structure VideoAnalysis where
  status : VAStatus
  main_story : String
  kitten_details : Option (List String)
deriving DecidableEq

/-- Models `VideoAnalysis.model_dump()`. -/
def VideoAnalysis.modelDump (v : VideoAnalysis) : Dict :=
  [("status", .str v.status.toStr),
   ("main_story", .str v.main_story),
   ("kitten_details",
     match v.kitten_details with
     | none => .null
     | some l => .arr (l.map JVal.str))]

def parseVAStatus : JVal → Except String VAStatus
  | .str "clear" => .ok .clear
  | .str "inconclusive" => .ok .inconclusive
  | .str "multiple_subjects" => .ok .multipleSubjects
  | _ => .error "ValidationError: status must be one of the Literal values"

def parseStrList : List JVal → Except String (List String)
  | [] => .ok []
  | .str s :: rest =>
    match parseStrList rest with
    | .ok l => .ok (s :: l)
    | .error e => .error e
  | _ :: _ => .error "ValidationError: kitten_details items must be strings"

def parseKittenDetails : Option JVal → Except String (Option (List String))
  | none => .ok none
  | some .null => .ok none
  | some (.arr xs) =>
    match parseStrList xs with
    | .ok l => .ok (some l)
    | .error e => .error e
  | some _ => .error "ValidationError: kitten_details must be a list or null"

/-- Models `VideoAnalysis.model_validate(d)` for a JSON-like dict: `status` must be
one of the three literals, `main_story` a string, `kitten_details` absent,
null or a list of strings; extra keys are ignored (pydantic default). -/
def VideoAnalysis.modelValidate (d : Dict) : Except String VideoAnalysis :=
  match dget d "status" with
  | none => .error "ValidationError: status is required"
  | some sv =>
    match parseVAStatus sv with
    | .error e => .error e
    | .ok status =>
      match dget d "main_story" with
      | some (.str s) =>
        match parseKittenDetails (dget d "kitten_details") with
        | .ok kd => .ok ⟨status, s, kd⟩
        | .error e => .error e
      | some _ => .error "ValidationError: main_story must be a string"
      | none => .error "ValidationError: main_story is required"

/-- The value of `resp.parsed` as the SDK may hand it back. -/
inductive GenParsed where
  | noParsed
  | asVideoAnalysis (v : VideoAnalysis)
  | asDict (d : Dict)
  | asOtherModel (dump : Dict)
  | otherType (tyName : String)

/-- The `resp.parsed` dispatch of `analyze_video` (lines 121-134): `None`
raises, a `VideoAnalysis` is kept, a dict or a foreign `BaseModel`'s dump is
validated, anything else raises `TypeError`. -/
def parsedToVA : GenParsed → Except String VideoAnalysis
  | .noParsed => .error "ValueError: Gemini returned no parsed content (resp.parsed is None)."
  | .asVideoAnalysis v => .ok v
  | .asDict d => VideoAnalysis.modelValidate d
  | .asOtherModel dump => VideoAnalysis.modelValidate dump
  | .otherType ty => .error ("TypeError: Unexpected resp.parsed type: " ++ ty)

/-- The uploaded file handle: its `uri` and the state name the `n`-th
`state` read yields (`0` is the state on the object returned by `upload`,
later reads come from `client.files.get`; `none` models a missing/`None`
state attribute). -/
structure Uploaded where
  uri : Option String
  stateAt : Nat → Option String

/-- External outcomes for processing one video. -/
structure PathWorld where
  shrunkExists : Bool
  shrunkMtime : Int
  origMtime : Int
  shrinkResult : Except String Unit
  uploadResult : Except String Uploaded
  genResult : Except String GenParsed
  timestamp : String

/-- Models `f"❌ Upload processing exceeded max wait ({cfg.processing_max_wait_s}s)"`. -/
def waitTimeoutMsg (maxWaitS : Nat) : String :=
  "❌ Upload processing exceeded max wait (" ++ toString maxWaitS ++ "s)"

/-- Models `f"❌ Video processing failed: state={state_name}"`. -/
def waitFailedMsg (stateName : String) : String :=
  "❌ Video processing failed: state=" ++ stateName

/-- Models `if state_name:` — `None` and the empty string are falsy. -/
def stateTruthy : Option String → Bool
  | some s => s ≠ ""
  | none => false

/-- The polling loop of `wait_until_ready`, at iteration `n` (so `n` sleeps
of `poll_s` seconds have elapsed; the time spent in `client.files.get` is
idealised to zero).  The explicit fuel only bounds the recursion: with
`pollS ≥ 1` the max-wait check fires before fuel `maxWaitS + 2` runs out
(lemma `waitAux_fuel_unreachable`), so the fuel-exhausted branch repeats the
max-wait error. -/
def waitAux (pollS maxWaitS : Nat) (stateAt : Nat → Option String) :
    Nat → Nat → Except String Nat
  | _, 0 => .error (waitTimeoutMsg maxWaitS)
  | n, fuel + 1 =>
    let sname := stateAt n
    if stateTruthy sname ∧ pyUpper (sname.getD "") = "FAILED" then
      .error (waitFailedMsg (sname.getD ""))
    else if stateTruthy sname ∧ pyUpper (sname.getD "") ≠ "PROCESSING" then
      .ok n
    else if maxWaitS < n * pollS then .error (waitTimeoutMsg maxWaitS)
    else waitAux pollS maxWaitS stateAt (n + 1) fuel

/-- Models `wait_until_ready`: poll until the state is truthy and not `PROCESSING`
(returning the index of the successful read), raise on `FAILED` or once the
elapsed time exceeds `processing_max_wait_s`. -/
def wait_until_ready (pollS maxWaitS : Nat) (stateAt : Nat → Option String) :
    Except String Nat :=
  waitAux pollS maxWaitS stateAt 0 (maxWaitS + 2)

/-- Events recorded by the modelled pipeline run, in execution order.  A
`writeLog` event is a `write_results` call and carries the whole store
written. -/
inductive Ev : Type where
  | skipLogged (assetKey : String)
  | reuseShrunk (origPath : String)
  | shrinkRun (origPath : String)
  | uploadDone (origPath : String)
  | pollDone (origPath : String)
  | parseDone (origPath : String)
  | persist (assetKey : String)
  | storeErr (assetKey : String)
  | writeLog (byAssetKey : Dict) (extra : Dict)

/-- The in-memory result store: the `by_asset_key` dict plus the other
top-level keys of the log document. -/
structure Store where
  byAssetKey : Dict
  extra : Dict

/-- The record `analyze_video` returns on success (lines 136-144). -/
def successRec (cfg : Config) (pw : PathWorld) (up : Uploaded) (va : VideoAnalysis)
    (shrunkPath origPath : String) : Dict :=
  [("original_filename", .str (pathName origPath)),
   ("original_path", .str origPath),
   ("shrunk_path", .str shrunkPath),
   ("file_uri",
     match up.uri with
     | some u => .str u
     | none => .null),
   ("timestamp", .str pw.timestamp),
   ("model_id", .str cfg.modelId),
   ("analysis", .obj va.modelDump)]

/-- Models `analyze_video`: upload, wait until ready, call `generate_content`
(outcome supplied by the world), dispatch `resp.parsed`, build the result
record.  The `finally` block (optional upload deletion, errors swallowed)
does not affect the returned value and is not traced. -/
def analyze_video (cfg : Config) (pw : PathWorld) (shrunkPath origPath : String) :
    Except String Dict × List Ev :=
  match pw.uploadResult with
  | .error m => (.error m, [])
  | .ok up =>
    match wait_until_ready cfg.uploadPollS cfg.processingMaxWaitS up.stateAt with
    | .error m => (.error m, [.uploadDone origPath])
    | .ok _ =>
      match pw.genResult with
      | .error m => (.error m, [.uploadDone origPath, .pollDone origPath])
      | .ok gp =>
        match parsedToVA gp with
        | .error m => (.error m, [.uploadDone origPath, .pollDone origPath])
        | .ok va =>
          (.ok (successRec cfg pw up va shrunkPath origPath),
           [.uploadDone origPath, .pollDone origPath, .parseDone origPath])

/-- Models `make_temp_name`: `f"shrunk__{original.stem}.mp4"`. -/
def make_temp_name (originalPath : String) : String :=
  "shrunk__" ++ pathStem originalPath ++ ".mp4"

/-- Models `asset_key_from_path`: `Path(p.name).stem`. -/
def asset_key_from_path (p : String) : String :=
  pyStemName (pathName p)

/-- Models `r.get("analysis") or r.get("error")` on a dict record (non-dict records
are never "done"). -/
def isDoneRec : JVal → Bool
  | .obj r => getTruthy r "analysis" || getTruthy r "error"
  | _ => false

/-- The keys of `by_asset_key` whose record is a dict with truthy
`analysis` or `error` (the `already_done` set, computed once before the
loop). -/
def alreadyDoneKeys (bak : Dict) : List String :=
  (bak.filter (fun kv => isDoneRec kv.2)).map Prod.fst

/-- The `Path(r.get("original_filename", "")).stem` fallback. -/
def legacyFallbackKey (r : Dict) : Except String (Option String) :=
  match dget r "original_filename" with
  | none => .ok none
  | some (.str s) =>
    let k := pathStem s
    .ok (if k = "" then none else some k)
  | some _ => .error "TypeError: argument should be a str or an os.PathLike object"

/-- Legacy-record key: `r.get("asset_key") or Path(r.get("original_filename", "")).stem`;
`none` means the record is dropped (`if k:` fails).  A non-string
`original_filename` makes `Path()` raise; a truthy non-string `asset_key`
would become a non-string dict key, which the string-keyed model cannot
represent (such a log is malformed — no well-formed log reaches this). -/
def legacyKey (r : Dict) : Except String (Option String) :=
  match dget r "asset_key" with
  | some (.str s) =>
    if s ≠ "" then .ok (some s) else legacyFallbackKey r
  | some v =>
    if pyTruthy v then .error "model: non-string asset_key in legacy record"
    else legacyFallbackKey r
  | none => legacyFallbackKey r

/-- The old-format (list) conversion loop of `load_existing_results`. -/
def legacyMigrate (acc : Dict) : List JVal → Except String Dict
  | [] => .ok acc
  | r :: rest =>
    match r with
    | .obj kvs =>
      match legacyKey kvs with
      | .error m => .error m
      | .ok (some k) => legacyMigrate (dset acc k (.obj kvs)) rest
      | .ok none => legacyMigrate acc rest
    | _ => legacyMigrate acc rest

/-- Models `load_existing_results` on the parsed log-file contents (`none` = the
file does not exist; reading and `json.loads` errors are out of scope).
The store keeps `by_asset_key` apart from the other top-level keys. -/
def load_existing_results (fileData : Option JVal) : Except String Store :=
  match fileData with
  | none => .ok ⟨[], []⟩
  | some (.obj kvs) =>
    match dget kvs "by_asset_key" with
    | some (.obj bak) => .ok ⟨bak, kvs.filter (fun kv => kv.1 ≠ "by_asset_key")⟩
    | _ => .ok ⟨[], []⟩
  | some (.arr rs) =>
    match legacyMigrate [] rs with
    | .ok bak => .ok ⟨bak, [("migrated_from_list", .bool true)]⟩
    | .error m => .error m
  | some _ => .ok ⟨[], []⟩

/-- The body of the `try` block up to `analyze_video`: reuse the shrunk file
when it exists with `mtime` at least the original's, otherwise run the
ffmpeg shrink (failure raises). -/
def attemptVideo (cfg : Config) (pw : PathWorld) (shrunkPath origPath : String) :
    Except String Dict × List Ev :=
  let step1 : Except String (List Ev) :=
    if pw.shrunkExists ∧ pw.origMtime ≤ pw.shrunkMtime then .ok [.reuseShrunk origPath]
    else
      match pw.shrinkResult with
      | .error m => .error m
      | .ok _ => .ok [.shrinkRun origPath]
  match step1 with
  | .error m => (.error m, [])
  | .ok evs0 =>
    let (res, evs) := analyze_video cfg pw shrunkPath origPath
    (res, evs0 ++ evs)

/-- The error record built in the `except` branch (lines 299-307). -/
def errRecord (cfg : Config) (pw : PathWorld)
    (assetKey shrunkPath origPath msg : String) : Dict :=
  [("asset_key", .str assetKey),
   ("original_filename", .str (pathName origPath)),
   ("original_path", .str origPath),
   ("shrunk_path", .str shrunkPath),
   ("timestamp", .str pw.timestamp),
   ("model_id", .str cfg.modelId),
   ("error", .str msg)]

/-- One iteration of the pipeline loop over `original_path`: skip when the
asset key is already done, otherwise attempt the video; on success stamp
`asset_key`, store the record and maybe persist (`save_every`); on any
exception store the error record and persist immediately. -/
def processOne (cfg : Config) (w : String → PathWorld) (saveEvery : Nat)
    (alreadyDone : List String) (store : Store) (cnt : Nat) (origPath : String) :
    Store × Nat × List Ev :=
  let assetKey := asset_key_from_path origPath
  if alreadyDone.contains assetKey then (store, cnt, [.skipLogged assetKey])
  else
    let pw := w origPath
    let shrunkPath := cfg.tempDir ++ "/" ++ make_temp_name origPath
    let (res, evs) := attemptVideo cfg pw shrunkPath origPath
    match res with
    | .ok record =>
      let record' := dset record "asset_key" (.str assetKey)
      let store' : Store :=
        { store with byAssetKey := dset store.byAssetKey assetKey (.obj record') }
      let cnt' := cnt + 1
      if saveEvery ≤ cnt' then
        (store', 0, evs ++ [.persist assetKey, .writeLog store'.byAssetKey store'.extra])
      else (store', cnt', evs ++ [.persist assetKey])
    | .error msg =>
      let bak' := dset store.byAssetKey assetKey
        (.obj (errRecord cfg pw assetKey shrunkPath origPath msg))
      let store' : Store := { store with byAssetKey := bak' }
      (store', cnt, evs ++ [.storeErr assetKey, .writeLog store'.byAssetKey store'.extra])

/-- The pipeline loop over the path list, threading the store and the
`processed_since_save` counter and concatenating the per-path events. -/
def runPaths (cfg : Config) (w : String → PathWorld) (saveEvery : Nat)
    (alreadyDone : List String) :
    List String → Store → Nat → Store × Nat × List Ev
  | [], store, cnt => (store, cnt, [])
  | p :: rest, store, cnt =>
    let (store', cnt', evs) := processOne cfg w saveEvery alreadyDone store cnt p
    let (store'', cnt'', evs') := runPaths cfg w saveEvery alreadyDone rest store' cnt'
    (store'', cnt'', evs ++ evs')

/-- Models `analyze_videos_with_gemini_pipeline`: load/resume the store, compute
the `already_done` keys, bail out on an empty path list, raise when inputs
are missing, run the loop, and flush unsaved results at the end. -/
def analyze_videos_with_gemini_pipeline (cfg : Config) (w : String → PathWorld)
    (pathExists : String → Bool) (fileData : Option JVal)
    (videoPaths : List String) (saveEvery : Nat := 1) :
    Except String (Store × List Ev) :=
  match load_existing_results fileData with
  | .error m => .error m
  | .ok store =>
    let alreadyDone := alreadyDoneKeys store.byAssetKey
    if videoPaths.isEmpty then .ok (store, [])
    else if videoPaths.any (fun p => !pathExists p) then
      .error "FileNotFoundError: Some input videos do not exist"
    else
      let (store', cnt, evs) := runPaths cfg w saveEvery alreadyDone videoPaths store 0
      if cnt ≠ 0 then .ok (store', evs ++ [.writeLog store'.byAssetKey store'.extra])
      else .ok (store', evs)

/-! ### Derived helper definitions used by theorem statements -/

/-- The value of one merge-loop iteration on a list element (the element is
left alone unless it is a dict, but a non-dict element makes the loop raise
before finishing, so this only describes successful runs). -/
def mergeItemVal (byAssetKey : Dict) (overwriteExisting : Bool) : JVal → JVal
  | .obj kvs => .obj (mergeOne byAssetKey overwriteExisting kvs).1
  | v => v

/-- Whether a content item is counted as `skipped`: a dict whose `type` is
neither `video` nor `youtube`. -/
def itemSkipped : JVal → Bool
  | .obj kvs => !typeIsVideoOrYoutube kvs
  | _ => false

/-- The record the pipeline stores for a processed (non-skipped) path: the
success record with `asset_key` stamped, or the error record. -/
def storedRecord (cfg : Config) (w : String → PathWorld) (p : String) : JVal :=
  let key := asset_key_from_path p
  let shrunkPath := cfg.tempDir ++ "/" ++ make_temp_name p
  match (attemptVideo cfg (w p) shrunkPath p).1 with
  | .ok rec => .obj (dset rec "asset_key" (.str key))
  | .error msg => .obj (errRecord cfg (w p) key shrunkPath p msg)

/-! ### Dict lemmas -/

theorem dget_dset_self (d : Dict) (k : String) (v : JVal) :
    dget (dset d k v) k = some v := by
  induction d with
  | nil => simp [dget, dset]
  | cons kv rest ih =>
    obtain ⟨k', v'⟩ := kv
    by_cases h : k' = k
    · simp [dget, dset, h]
    · simp [dget, dset, h, ih]

theorem dget_dset_ne (d : Dict) (k k' : String) (v : JVal) (h : k' ≠ k) :
    dget (dset d k v) k' = dget d k' := by
  induction d with
  | nil => simp [dget, dset, Ne.symm h]
  | cons kv rest ih =>
    obtain ⟨k0, v0⟩ := kv
    by_cases h0 : k0 = k
    · subst h0
      simp [dget, dset, Ne.symm h]
    · simp only [dset, if_neg h0]
      by_cases h1 : k0 = k'
      · simp [dget, h1]
      · simp [dget, h1, ih]

theorem mem_keys_dset (d : Dict) (k a : String) (v : JVal) :
    a ∈ (dset d k v).map Prod.fst ↔ a ∈ d.map Prod.fst ∨ a = k := by
  induction d with
  | nil => simp [dset]
  | cons kv rest ih =>
    obtain ⟨k0, v0⟩ := kv
    by_cases h0 : k0 = k
    · subst h0
      simp [dset]
      tauto
    · simp only [dset, if_neg h0, List.map_cons, List.mem_cons, ih]
      tauto

theorem nodup_keys_dset (d : Dict) (k : String) (v : JVal)
    (h : (d.map Prod.fst).Nodup) : ((dset d k v).map Prod.fst).Nodup := by
  induction d with
  | nil => simp [dset]
  | cons kv rest ih =>
    obtain ⟨k0, v0⟩ := kv
    simp only [List.map_cons, List.nodup_cons] at h
    by_cases h0 : k0 = k
    · subst h0
      simpa [dset, List.nodup_cons] using h
    · simp only [dset, if_neg h0, List.map_cons, List.nodup_cons]
      refine ⟨?_, ih h.2⟩
      rw [mem_keys_dset]
      rintro (hmem | rfl)
      · exact h.1 hmem
      · exact h0 rfl

theorem dget_some_mem (d : Dict) (k : String) (v : JVal)
    (h : dget d k = some v) : (k, v) ∈ d := by
  induction d with
  | nil => simp [dget] at h
  | cons kv rest ih =>
    obtain ⟨k0, v0⟩ := kv
    by_cases h0 : k0 = k
    · subst h0
      simp [dget] at h
      subst h
      exact List.mem_cons_self _ _
    · simp only [dget, if_neg h0] at h
      exact List.mem_cons_of_mem _ (ih h)

/-! ### Sorting lemmas -/

theorem insertSorted_perm (le : α → α → Bool) (x : α) (l : List α) :
    (insertSorted le x l).Perm (x :: l) := by
  induction l with
  | nil => simp [insertSorted]
  | cons y rest ih =>
    by_cases h : le y x = true
    · simp only [insertSorted, if_pos h]
      exact (ih.cons y).trans (List.Perm.swap x y rest)
    · simp only [insertSorted, h]
      simp

theorem stableSort_perm (le : α → α → Bool) (l : List α) :
    (stableSort le l).Perm l := by
  suffices h : ∀ acc : List α, (l.foldl (fun acc x => insertSorted le x acc) acc).Perm (acc ++ l) by
    simpa [stableSort] using h []
  induction l with
  | nil => simp
  | cons x rest ih =>
    intro acc
    simp only [List.foldl_cons]
    refine (ih (insertSorted le x acc)).trans ?_
    have h1 : (insertSorted le x acc ++ rest).Perm ((x :: acc) ++ rest) :=
      (insertSorted_perm le x acc).append_right rest
    refine h1.trans ?_
    simp only [List.cons_append]
    exact (List.perm_middle).symm

/-! ### C10: get_fps_ffprobe guards its division -/

/-- Every fraction `pyFloat` produces has a positive denominator. -/
theorem pyFloat_den_pos (s : String) (f : Frac) (h : pyFloat s = some f) :
    0 < f.den := by
  dsimp only [pyFloat] at h
  split at h
  · exact absurd h (by simp)
  · split at h
    · simp only [Option.some.injEq] at h
      subst h
      positivity
    · split at h
      · split at h
        · exact absurd h (by simp)
        · split at h
          · simp only [Option.some.injEq] at h
            subst h
            have : (0 : Int) < ((10 ^ (takeDigits 0 0 s.toList).2.1 : Nat) : Int) := by
              positivity
            positivity
          · simp only [Option.some.injEq] at h
            subst h
            positivity
      · exact absurd h (by simp)

/-- C10: `get_fps_ffprobe` is total and guards its division.  Timeouts, other
exceptions and blank output give `None`; when the stripped output has the
form `num/den`, the parsed numerator and denominator are divided only when
the denominator is nonzero (and the result is exactly their quotient), a
zero denominator gives `None`, and an unparsable side gives `None` (the
`float` call raises and the `except` swallows it). -/
theorem c10_get_fps_guards :
    (get_fps_ffprobe .timeout = none) ∧
    (get_fps_ffprobe .exn = none) ∧
    (∀ s : String, pyStrip s = "" → get_fps_ffprobe (.ok s) = none) ∧
    (∀ s : String,
      pyStrip s ≠ "" →
      containsChar (pyStrip s) '/' = true →
      ((pyFloat (rateNumS (pyStrip s)) = none ∨ pyFloat (rateDenS (pyStrip s)) = none) →
        get_fps_ffprobe (.ok s) = none) ∧
      (∀ num den : Frac,
        pyFloat (rateNumS (pyStrip s)) = some num →
        pyFloat (rateDenS (pyStrip s)) = some den →
        (den.isZero = true → get_fps_ffprobe (.ok s) = none) ∧
        (den.isZero = false →
          get_fps_ffprobe (.ok s) = some (fracDiv num den) ∧
          (fracDiv num den).toRat = num.toRat / den.toRat))) := by
  refine ⟨rfl, rfl, ?_, ?_⟩
  · intro s hs
    simp [get_fps_ffprobe, hs]
  · intro s hne hsl
    constructor
    · rintro (hn | hd)
      · simp only [get_fps_ffprobe, hne, if_false, hsl, if_true]
        split <;> simp_all
      · simp only [get_fps_ffprobe, hne, if_false, hsl, if_true]
        split <;> simp_all
    · intro num den hn hd
      constructor
      · intro hz
        simp [get_fps_ffprobe, hne, hsl, hn, hd, hz]
      · intro hz
        refine ⟨by simp [get_fps_ffprobe, hne, hsl, hn, hd, hz], ?_⟩
        have hdnum : den.num ≠ 0 := by
          simpa [Frac.isZero] using hz
        have hdden : den.den ≠ 0 := by
          have := pyFloat_den_pos _ _ hd
          omega
        have hnden : num.den ≠ 0 := by
          have := pyFloat_den_pos _ _ hn
          omega
        have h1 : (num.den : ℚ) ≠ 0 := Int.cast_ne_zero.mpr hnden
        have h2 : (den.den : ℚ) ≠ 0 := Int.cast_ne_zero.mpr hdden
        have h3 : (den.num : ℚ) ≠ 0 := Int.cast_ne_zero.mpr hdnum
        simp only [fracDiv, Frac.toRat]
        push_cast
        field_simp

/-- C10 witness: concrete evaluations through the theorem. -/
theorem c10_get_fps_guards_witness :
    get_fps_ffprobe (.ok " 30000/1001 ") = some (fracDiv ⟨30000, 1⟩ ⟨1001, 1⟩) ∧
    get_fps_ffprobe (.ok "0/0") = none ∧
    get_fps_ffprobe (.ok "  ") = none ∧
    get_fps_ffprobe (.ok "a/3") = none := by
  refine ⟨?_, ?_, ?_, ?_⟩
  · exact (((c10_get_fps_guards.2.2.2 " 30000/1001 "
      (by decide) rfl).2 ⟨30000, 1⟩ ⟨1001, 1⟩ rfl rfl).2 rfl).1
  · exact ((c10_get_fps_guards.2.2.2 "0/0"
      (by decide) rfl).2 ⟨0, 1⟩ ⟨0, 1⟩ rfl rfl).1 rfl
  · exact c10_get_fps_guards.2.2.1 "  " rfl
  · exact (c10_get_fps_guards.2.2.2 "a/3"
      (by decide) rfl).1 (Or.inl rfl)

/-! ### C7: scan_files -/

theorem scanRows_path_mem (ne ve : List String) (probe : String → FfprobeOutcome) :
    ∀ (entries : List FsEntry) (r : ScanRow), r ∈ scanRows ne ve probe entries →
      r.path ∈ entries.map FsEntry.path := by
  intro entries
  induction entries with
  | nil => intro r hr; simp [scanRows] at hr
  | cons f rest ih =>
    intro r hr
    by_cases hf : f.isFile
    · by_cases hext : ne.contains (pyLower (pathSuffix f.path))
      · simp only [scanRows, hf, Bool.not_true, Bool.false_eq_true, if_false, hext,
          List.mem_cons] at hr
        rcases hr with hr | hr
        · subst hr
          simp
        · simp [ih r hr]
      · simp only [scanRows, hf, Bool.not_true, Bool.false_eq_true, if_false, hext,
          Bool.not_false, if_true] at hr
        simp [ih r hr]
    · simp only [scanRows, Bool.not_eq_true] at hr
      rw [if_pos] at hr
      · simp [ih r hr]
      · simp [hf]

theorem scanRows_countP (ne ve : List String) (probe : String → FfprobeOutcome) :
    ∀ (entries : List FsEntry), (entries.map FsEntry.path).Nodup →
      ∀ e ∈ entries,
        (scanRows ne ve probe entries).countP (fun r => r.path == e.path) =
          if e.isFile = true ∧ ne.contains (pyLower (pathSuffix e.path)) = true then 1 else 0 := by
  intro entries
  induction entries with
  | nil => intro _ e he; simp at he
  | cons f rest ih =>
    intro hnd e he
    simp only [List.map_cons, List.nodup_cons] at hnd
    have hrest0 : ∀ (x : FsEntry), x ∈ rest → f.path ≠ x.path := by
      intro x hx hpx
      exact hnd.1 (hpx ▸ List.mem_map_of_mem FsEntry.path hx)
    rcases List.mem_cons.mp he with rfl | he'
    · -- e is the head entry: its own row contributes, the rest contributes 0
      have hzero : (scanRows ne ve probe rest).countP (fun r => r.path == e.path) = 0 := by
        rw [List.countP_eq_zero]
        intro r hr
        have := scanRows_path_mem ne ve probe rest r hr
        simp only [List.mem_map] at this
        obtain ⟨x, hx, hxe⟩ := this
        simp only [beq_iff_eq]
        rw [← hxe]
        exact fun hh => hrest0 x hx hh.symm
      by_cases hf : e.isFile
      · by_cases hext : ne.contains (pyLower (pathSuffix e.path))
        · simp only [scanRows, hf, Bool.not_true, Bool.false_eq_true, if_false, hext,
            List.countP_cons, hzero]
          simp [hf, hext]
        · simp only [scanRows, hf, Bool.not_true, Bool.false_eq_true, if_false, hext,
            Bool.not_false, if_true, hzero]
          simp [hext]
      · simp only [scanRows, Bool.not_eq_true]
        rw [if_pos (by simp [hf])]
        rw [hzero]
        simp [hf]
    · -- e is in the tail: the head's row (if any) has a different path
      have hne : ¬(f.path == e.path) = true := by
        simp only [beq_iff_eq]
        exact hrest0 e he'
      have hrec := ih hnd.2 e he'
      by_cases hf : f.isFile
      · by_cases hext : ne.contains (pyLower (pathSuffix f.path))
        · simp only [scanRows, hf, Bool.not_true, Bool.false_eq_true, if_false, hext,
            List.countP_cons]
          rw [hrec]
          simp [hne]
        · simp only [scanRows, hf, Bool.not_true, Bool.false_eq_true, if_false, hext,
            Bool.not_false, if_true]
          exact hrec
      · simp only [scanRows, Bool.not_eq_true]
        rw [if_pos (by simp [hf])]
        exact hrec

theorem scanRows_row_props (ne ve : List String) (probe : String → FfprobeOutcome) :
    ∀ (entries : List FsEntry) (r : ScanRow), r ∈ scanRows ne ve probe entries →
      (r.ext ∉ ve → r.fps = none ∧ r.ffprobe_status = "skip") ∧
      (r.ext ∈ ve →
        ((r.ffprobe_status = "ok" ↔ r.fps ≠ none) ∧
         (r.fps = none → r.ffprobe_status = "timeout_or_error"))) := by
  intro entries
  induction entries with
  | nil => intro r hr; simp [scanRows] at hr
  | cons f rest ih =>
    intro r hr
    by_cases hf : f.isFile
    · by_cases hext : ne.contains (pyLower (pathSuffix f.path))
      · simp only [scanRows, hf, Bool.not_true, Bool.false_eq_true, if_false, hext,
          List.mem_cons] at hr
        rcases hr with hr | hr
        · subst hr
          by_cases hve : ve.contains (pyLower (pathSuffix f.path))
          · have hvem : pyLower (pathSuffix f.path) ∈ ve := List.elem_iff.mp hve
            constructor
            · intro hnot
              exact absurd hvem hnot
            · intro _
              cases hfps : get_fps_ffprobe (probe f.path) with
              | none => simp [hve, hvem, hfps]
              | some q => simp [hve, hvem, hfps]
          · have hvem : pyLower (pathSuffix f.path) ∉ ve := fun hm =>
              hve (List.elem_iff.mpr hm)
            constructor
            · intro _
              simp [hve, hvem]
            · intro hmem
              exact absurd hmem hvem
        · exact ih r hr
      · simp only [scanRows, hf, Bool.not_true, Bool.false_eq_true, if_false, hext,
          Bool.not_false, if_true] at hr
        exact ih r hr
    · simp only [scanRows, Bool.not_eq_true] at hr
      rw [if_pos (by simp [hf])] at hr
      exact ih r hr

/-- C7: `scan_files` returns exactly one row per regular file under the
scanned directory whose lower-cased suffix is in the normalized extension
list (and rows come only from scanned entries); non-video rows have `fps`
`None` and status `skip`; video rows have status `ok` exactly when `fps` is
not `None`, and `timeout_or_error` otherwise. -/
theorem c7_scan_files (entries : List FsEntry) (exts : List String)
    (probe : String → FfprobeOutcome) (videoExts : List String)
    (hnodup : (entries.map FsEntry.path).Nodup) :
    (∀ r ∈ scan_files entries exts probe videoExts,
        r.path ∈ entries.map FsEntry.path) ∧
    (∀ e ∈ entries,
        (scan_files entries exts probe videoExts).countP (fun r => r.path == e.path) =
          if e.isFile = true ∧
              (exts.map normalizeExt).contains (pyLower (pathSuffix e.path)) = true
          then 1 else 0) ∧
    (∀ r ∈ scan_files entries exts probe videoExts,
        (r.ext ∉ (if videoExts.isEmpty then VIDEO_EXTS_DEFAULT else videoExts) →
            r.fps = none ∧ r.ffprobe_status = "skip") ∧
        (r.ext ∈ (if videoExts.isEmpty then VIDEO_EXTS_DEFAULT else videoExts) →
            ((r.ffprobe_status = "ok" ↔ r.fps ≠ none) ∧
             (r.fps = none → r.ffprobe_status = "timeout_or_error")))) := by
  have hperm :
      (scan_files entries exts probe videoExts).Perm
        (scanRows (exts.map normalizeExt)
          (if videoExts.isEmpty then VIDEO_EXTS_DEFAULT else videoExts) probe entries) :=
    stableSort_perm _ _
  refine ⟨?_, ?_, ?_⟩
  · intro r hr
    exact scanRows_path_mem _ _ probe entries r (hperm.mem_iff.mp hr)
  · intro e he
    rw [List.Perm.countP_congr hperm (fun _ _ => rfl)]
    exact scanRows_countP _ _ probe entries hnodup e he
  · intro r hr
    exact scanRows_row_props _ _ probe entries r (hperm.mem_iff.mp hr)

/-- C7 witness: the theorem applied to a concrete directory listing. -/
theorem c7_scan_files_witness :
    (∀ r ∈ scan_files
        [⟨"/d/a.MP4", true, 5, 100⟩, ⟨"/d/sub", false, 1, 0⟩, ⟨"/d/b.jpg", true, 3, 7⟩]
        ["mp4", ".JPG"] (fun p => if p = "/d/a.MP4" then .ok "60/1" else .timeout) [],
      r.path ∈ ["/d/a.MP4", "/d/sub", "/d/b.jpg"]) ∧
    ((scan_files
        [⟨"/d/a.MP4", true, 5, 100⟩, ⟨"/d/sub", false, 1, 0⟩, ⟨"/d/b.jpg", true, 3, 7⟩]
        ["mp4", ".JPG"] (fun p => if p = "/d/a.MP4" then .ok "60/1" else .timeout) []).countP
        (fun r => r.path == "/d/a.MP4") = 1) := by
  have h := c7_scan_files
    [⟨"/d/a.MP4", true, 5, 100⟩, ⟨"/d/sub", false, 1, 0⟩, ⟨"/d/b.jpg", true, 3, 7⟩]
    ["mp4", ".JPG"] (fun p => if p = "/d/a.MP4" then .ok "60/1" else .timeout) []
    (by decide)
  refine ⟨?_, ?_⟩
  · intro r hr
    simpa using h.1 r hr
  · have := h.2.1 ⟨"/d/a.MP4", true, 5, 100⟩ (by simp)
    simpa using this

/-! ### Merge lemmas -/

theorem applyUpdate_asset_key (ow : Bool) (k : String) (rec kvs : Dict) :
    dget (applyUpdate ow k rec kvs) "asset_key" = some (.str k) := by
  rcases hpick : pickStoryDetailsMeta rec with ⟨story, details, meta⟩
  simp only [applyUpdate, hpick]
  repeat' split
  all_goals simp_all [dget_dset_ne, dget_dset_self]

theorem applyUpdate_story (ow : Bool) (k : String) (rec kvs : Dict) :
    dget (applyUpdate ow k rec kvs) "story" = dget kvs "story" ∨
    dget (applyUpdate ow k rec kvs) "story" =
      some (.str (pickStoryDetailsMeta rec).1) := by
  rcases hpick : pickStoryDetailsMeta rec with ⟨story, details, meta⟩
  simp only [applyUpdate, hpick]
  repeat' split
  all_goals simp_all [dget_dset_ne, dget_dset_self]

theorem applyUpdate_details (ow : Bool) (k : String) (rec kvs : Dict) :
    dget (applyUpdate ow k rec kvs) "details" = dget kvs "details" ∨
    dget (applyUpdate ow k rec kvs) "details" =
      some (.arr ((pickStoryDetailsMeta rec).2.1.map JVal.str)) := by
  rcases hpick : pickStoryDetailsMeta rec with ⟨story, details, meta⟩
  simp only [applyUpdate, hpick]
  repeat' split
  all_goals simp_all [dget_dset_ne, dget_dset_self]

theorem applyUpdate_analysis (ow : Bool) (k : String) (rec kvs : Dict) :
    dget (applyUpdate ow k rec kvs) "analysis" = dget kvs "analysis" ∨
    ∃ m : Dict, (pickStoryDetailsMeta rec).2.2 = some m ∧
      dget (applyUpdate ow k rec kvs) "analysis" = some (.obj m) := by
  rcases hpick : pickStoryDetailsMeta rec with ⟨story, details, meta⟩
  simp only [applyUpdate, hpick]
  repeat' split
  all_goals simp_all [dget_dset_ne, dget_dset_self]

theorem applyUpdate_frame (ow : Bool) (k : String) (rec kvs : Dict) (key : String)
    (h1 : key ≠ "asset_key") (h2 : key ≠ "story") (h3 : key ≠ "details")
    (h4 : key ≠ "analysis") :
    dget (applyUpdate ow k rec kvs) key = dget kvs key := by
  rcases hpick : pickStoryDetailsMeta rec with ⟨story, details, meta⟩
  simp only [applyUpdate, hpick]
  repeat' split
  all_goals simp_all [dget_dset_ne, dget_dset_self]

theorem applyUpdate_story_keep (k : String) (rec kvs : Dict) (s : String)
    (h : dget kvs "story" = some (.str s)) (hs : pyStrip s ≠ "") :
    dget (applyUpdate false k rec kvs) "story" = some (.str s) := by
  rcases hpick : pickStoryDetailsMeta rec with ⟨story, details, meta⟩
  have hb : storyAbsentOrBlank (dset kvs "asset_key" (.str k)) = false := by
    simp [storyAbsentOrBlank, dget_dset_ne _ _ _ _ (by decide : ("story" : String) ≠ "asset_key"), h,
      pyStr, hs]
  simp only [applyUpdate, hpick, hb, Bool.false_or, Bool.or_false, ne_eq,
    Bool.and_false, and_false, if_false]
  repeat' split
  all_goals simp_all [dget_dset_ne, dget_dset_self]

theorem applyUpdate_details_keep (k : String) (rec kvs : Dict) (xs : List JVal)
    (h : dget kvs "details" = some (.arr xs)) (hx : xs ≠ []) :
    dget (applyUpdate false k rec kvs) "details" = some (.arr xs) := by
  rcases hpick : pickStoryDetailsMeta rec with ⟨story, details, meta⟩
  have hd2 : ∀ v, dget (dset (dset kvs "asset_key" (.str k)) "story" v) "details"
      = some (.arr xs) := by
    intro v
    rw [dget_dset_ne _ _ _ _ (by decide : ("details" : String) ≠ "story"),
      dget_dset_ne _ _ _ _ (by decide : ("details" : String) ≠ "asset_key")]
    exact h
  have hd1 : dget (dset kvs "asset_key" (.str k)) "details" = some (.arr xs) := by
    rw [dget_dset_ne _ _ _ _ (by decide : ("details" : String) ≠ "asset_key")]
    exact h
  simp only [applyUpdate, hpick]
  repeat' split
  all_goals simp_all [detailsAbsentOrEmpty, dget_dset_ne, dget_dset_self]

theorem applyUpdate_analysis_keep (k : String) (rec kvs : Dict) (m : Dict)
    (h : dget kvs "analysis" = some (.obj m)) (hm : m ≠ []) :
    dget (applyUpdate false k rec kvs) "analysis" = some (.obj m) := by
  rcases hpick : pickStoryDetailsMeta rec with ⟨story, details, meta⟩
  simp only [applyUpdate, hpick]
  repeat' split
  all_goals simp_all [analysisAbsentOrEmpty, dget_dset_ne, dget_dset_self]

theorem mergeOne_skipped_iff (bak : Dict) (ow : Bool) (kvs : Dict) :
    (mergeOne bak ow kvs).2 = .skipped ↔ typeIsVideoOrYoutube kvs = false := by
  by_cases ht : typeIsVideoOrYoutube kvs
  · simp only [mergeOne, ht, Bool.not_true, Bool.false_eq_true, if_false]
    cases hd : deriveAssetKeyFromItem kvs with
    | none => simp [ht]
    | some k =>
      by_cases hk : k = ""
      · simp [hk, ht]
      · simp only [hk, if_false]
        cases hr : dget bak k with
        | none => simp [ht]
        | some v => cases v <;> simp [ht]
  · simp [mergeOne, ht]

theorem mergeOne_matched (bak : Dict) (ow : Bool) (kvs rec : Dict) (k : String)
    (ht : typeIsVideoOrYoutube kvs = true)
    (hk : deriveAssetKeyFromItem kvs = some k) (hk2 : k ≠ "")
    (hr : dget bak k = some (.obj rec)) :
    mergeOne bak ow kvs = (applyUpdate ow k rec kvs, .matched) := by
  simp [mergeOne, ht, hk, hk2, hr]

theorem mergeOne_unchanged_of_derive_none (bak : Dict) (ow : Bool) (kvs : Dict)
    (ht : typeIsVideoOrYoutube kvs = true)
    (hk : deriveAssetKeyFromItem kvs = none) :
    (mergeOne bak ow kvs).1 = kvs := by
  simp [mergeOne, ht, hk]

theorem mergeOne_unchanged_of_no_record (bak : Dict) (ow : Bool) (kvs : Dict)
    (k : String) (ht : typeIsVideoOrYoutube kvs = true)
    (hk : deriveAssetKeyFromItem kvs = some k)
    (hno : k = "" ∨ ∀ rec : Dict, dget bak k ≠ some (.obj rec)) :
    (mergeOne bak ow kvs).1 = kvs := by
  rcases hno with rfl | hno
  · simp [mergeOne, ht, hk]
  · by_cases hk2 : k = ""
    · simp [mergeOne, ht, hk, hk2]
    · simp only [mergeOne, ht, Bool.not_true, Bool.false_eq_true, if_false, hk, if_neg hk2]

/-- The shape of a successful merge run: the output is the per-item map, the
counters partition the items, and `skipped` counts the non-video items. -/
theorem mergeLoop_ok_shape (bak : Dict) (ow : Bool) :
    ∀ (items out : List JVal) (st : MergeStats),
      mergeLoop bak ow items = .ok (out, st) →
      out = items.map (mergeItemVal bak ow) ∧
      st.matched + st.skipped + st.missing_key + st.no_match = items.length ∧
      st.skipped = items.countP itemSkipped := by
  intro items
  induction items with
  | nil =>
    intro out st h
    simp only [mergeLoop, Except.ok.injEq, Prod.mk.injEq] at h
    obtain ⟨h1, h2⟩ := h
    subst h1
    subst h2
    simp
  | cons item rest ih =>
    intro out st h
    cases item with
    | obj kvs =>
      cases hrec : mergeLoop bak ow rest with
      | error e => simp [mergeLoop, hrec] at h
      | ok pr =>
        obtain ⟨rest', st'⟩ := pr
        simp only [mergeLoop, hrec, Except.ok.injEq, Prod.mk.injEq] at h
        obtain ⟨h1, h2⟩ := h
        subst h1
        subst h2
        obtain ⟨ihmap, ihtot, ihsk⟩ := ih rest' st' hrec
        subst ihmap
        refine ⟨rfl, ?_, ?_⟩
        · cases hc : (mergeOne bak ow kvs).2 <;>
            simp [MergeStats.bump, List.length_cons] <;> omega
        · cases hc : (mergeOne bak ow kvs).2 with
          | skipped =>
            have hts : typeIsVideoOrYoutube kvs = false :=
              (mergeOne_skipped_iff bak ow kvs).mp hc
            simp [MergeStats.bump, List.countP_cons, itemSkipped, hts, ihsk]
          | matched =>
            have ht : typeIsVideoOrYoutube kvs = true := by
              have hsk := mergeOne_skipped_iff bak ow kvs
              simp [hc] at hsk
              exact hsk
            simp [MergeStats.bump, List.countP_cons, itemSkipped, ht, ihsk]
          | missingKey =>
            have ht : typeIsVideoOrYoutube kvs = true := by
              have hsk := mergeOne_skipped_iff bak ow kvs
              simp [hc] at hsk
              exact hsk
            simp [MergeStats.bump, List.countP_cons, itemSkipped, ht, ihsk]
          | noMatch =>
            have ht : typeIsVideoOrYoutube kvs = true := by
              have hsk := mergeOne_skipped_iff bak ow kvs
              simp [hc] at hsk
              exact hsk
            simp [MergeStats.bump, List.countP_cons, itemSkipped, ht, ihsk]
    | null => simp [mergeLoop] at h
    | bool b => simp [mergeLoop] at h
    | num n => simp [mergeLoop] at h
    | str s => simp [mergeLoop] at h
    | arr xs => simp [mergeLoop] at h

/-- Reduce a successful `merge_content_with_analysis` run to the loop. -/
theorem merge_run_to_loop (items : List JVal) (rootKvs bak : Dict) (ow : Bool)
    (out : List JVal) (st : MergeStats)
    (hbak : dget rootKvs "by_asset_key" = some (.obj bak))
    (hrun : merge_content_with_analysis (.arr items) (.obj rootKvs) ow = .ok (out, st)) :
    mergeLoop bak ow items = .ok (out, st) := by
  simpa [merge_content_with_analysis, hbak] using hrun

/-- C9: the statistics partition the content list (`skipped` counting exactly
the non-video/youtube items) and the written output has the same length and
item order as the input. -/
theorem c9_merge_stats (items : List JVal) (rootKvs bak : Dict) (ow : Bool)
    (out : List JVal) (st : MergeStats)
    (hbak : dget rootKvs "by_asset_key" = some (.obj bak))
    (hrun : merge_content_with_analysis (.arr items) (.obj rootKvs) ow = .ok (out, st)) :
    st.matched + st.skipped + st.missing_key + st.no_match = items.length ∧
    st.skipped = items.countP itemSkipped ∧
    out.length = items.length ∧
    ∀ i : Nat, out.get? i = (items.get? i).map (mergeItemVal bak ow) := by
  obtain ⟨hmap, htot, hsk⟩ :=
    mergeLoop_ok_shape bak ow items out st (merge_run_to_loop items rootKvs bak ow out st hbak hrun)
  subst hmap
  refine ⟨htot, hsk, by simp, ?_⟩
  intro i
  simp

/-- C9 witness: a concrete two-item run through the theorem. -/
theorem c9_merge_stats_witness :
    (MergeStats.matched ⟨0, 1, 1, 0⟩ + MergeStats.skipped ⟨0, 1, 1, 0⟩ +
        MergeStats.missing_key ⟨0, 1, 1, 0⟩ + MergeStats.no_match ⟨0, 1, 1, 0⟩ =
      [JVal.obj [("type", JVal.str "photo")], JVal.obj [("type", JVal.str "video")]].length) ∧
    (MergeStats.skipped ⟨0, 1, 1, 0⟩ =
      [JVal.obj [("type", JVal.str "photo")], JVal.obj [("type", JVal.str "video")]].countP itemSkipped) ∧
    ([JVal.obj [("type", JVal.str "photo")], JVal.obj [("type", JVal.str "video")]].length =
      [JVal.obj [("type", JVal.str "photo")], JVal.obj [("type", JVal.str "video")]].length) := by
  have h := c9_merge_stats
    [JVal.obj [("type", JVal.str "photo")], JVal.obj [("type", JVal.str "video")]]
    [("by_asset_key", JVal.obj [])] [] false
    [JVal.obj [("type", JVal.str "photo")], JVal.obj [("type", JVal.str "video")]]
    ⟨0, 1, 1, 0⟩ rfl rfl
  exact ⟨h.1, h.2.1, h.2.2.1⟩

/-- C1: the merge joins exclusively on the derived asset key.  For every
dict item of type `video`/`youtube` in the content list: with no truthy
derived key, or a derived key that does not map to a dict record in
`by_asset_key`, the item is written out unchanged; when the derived key maps
to a dict record, the item is written out with the update applied — its
`asset_key` set to the derived key and its `story`/`details`/`analysis`
either left alone or taken from the values picked out of that record. -/
theorem c1_merge_join (items : List JVal) (rootKvs bak : Dict) (ow : Bool)
    (out : List JVal) (st : MergeStats)
    (hbak : dget rootKvs "by_asset_key" = some (.obj bak))
    (hrun : merge_content_with_analysis (.arr items) (.obj rootKvs) ow = .ok (out, st)) :
    ∀ (i : Nat) (kvs : Dict), items.get? i = some (.obj kvs) →
      typeIsVideoOrYoutube kvs = true →
      (deriveAssetKeyFromItem kvs = none → out.get? i = some (.obj kvs)) ∧
      (∀ k : String, deriveAssetKeyFromItem kvs = some k →
        (k = "" ∨ ∀ rec : Dict, dget bak k ≠ some (.obj rec)) →
        out.get? i = some (.obj kvs)) ∧
      (∀ (k : String) (rec : Dict), deriveAssetKeyFromItem kvs = some k → k ≠ "" →
        dget bak k = some (.obj rec) →
        out.get? i = some (.obj (applyUpdate ow k rec kvs)) ∧
        dget (applyUpdate ow k rec kvs) "asset_key" = some (.str k) ∧
        (dget (applyUpdate ow k rec kvs) "story" = dget kvs "story" ∨
         dget (applyUpdate ow k rec kvs) "story" =
           some (.str (pickStoryDetailsMeta rec).1)) ∧
        (dget (applyUpdate ow k rec kvs) "details" = dget kvs "details" ∨
         dget (applyUpdate ow k rec kvs) "details" =
           some (.arr ((pickStoryDetailsMeta rec).2.1.map JVal.str))) ∧
        (dget (applyUpdate ow k rec kvs) "analysis" = dget kvs "analysis" ∨
         ∃ m : Dict, (pickStoryDetailsMeta rec).2.2 = some m ∧
           dget (applyUpdate ow k rec kvs) "analysis" = some (.obj m))) := by
  have hshape := mergeLoop_ok_shape bak ow items out st
    (merge_run_to_loop items rootKvs bak ow out st hbak hrun)
  obtain ⟨hmap, -, -⟩ := hshape
  subst hmap
  intro i kvs hi ht
  have hout : (items.map (mergeItemVal bak ow)).get? i =
      some (mergeItemVal bak ow (.obj kvs)) := by
    rw [List.get?_map, hi]
    rfl
  refine ⟨?_, ?_, ?_⟩
  · intro hk
    rw [hout]
    simp [mergeItemVal, mergeOne_unchanged_of_derive_none bak ow kvs ht hk]
  · intro k hk hno
    rw [hout]
    simp [mergeItemVal, mergeOne_unchanged_of_no_record bak ow kvs k ht hk hno]
  · intro k rec hk hk2 hr
    have hm := mergeOne_matched bak ow kvs rec k ht hk hk2 hr
    refine ⟨?_, applyUpdate_asset_key ow k rec kvs, applyUpdate_story ow k rec kvs,
      applyUpdate_details ow k rec kvs, applyUpdate_analysis ow k rec kvs⟩
    rw [hout]
    simp [mergeItemVal, hm]

/-- C1 witness: a concrete matched item through the theorem. -/
theorem c1_merge_join_witness :
    ([JVal.obj [("type", JVal.str "video"), ("asset_key", JVal.str "k1")]].map
        (mergeItemVal [("k1", JVal.obj [("story", JVal.str "S"), ("analysis", JVal.obj [("main_story", JVal.str "S")])])] false)).get? 0 =
      some (JVal.obj (applyUpdate false "k1"
        [("story", JVal.str "S"), ("analysis", JVal.obj [("main_story", JVal.str "S")])]
        [("type", JVal.str "video"), ("asset_key", JVal.str "k1")])) ∧
    dget (applyUpdate false "k1"
        [("story", JVal.str "S"), ("analysis", JVal.obj [("main_story", JVal.str "S")])]
        [("type", JVal.str "video"), ("asset_key", JVal.str "k1")]) "asset_key" =
      some (JVal.str "k1") := by
  have h := c1_merge_join
    [JVal.obj [("type", JVal.str "video"), ("asset_key", JVal.str "k1")]]
    [("by_asset_key", JVal.obj [("k1", JVal.obj [("story", JVal.str "S"), ("analysis", JVal.obj [("main_story", JVal.str "S")])])])]
    [("k1", JVal.obj [("story", JVal.str "S"), ("analysis", JVal.obj [("main_story", JVal.str "S")])])]
    false
    ([JVal.obj [("type", JVal.str "video"), ("asset_key", JVal.str "k1")]].map
      (mergeItemVal [("k1", JVal.obj [("story", JVal.str "S"), ("analysis", JVal.obj [("main_story", JVal.str "S")])])] false))
    ⟨1, 0, 0, 0⟩ rfl rfl 0
    [("type", JVal.str "video"), ("asset_key", JVal.str "k1")] rfl rfl
  obtain ⟨-, -, h3⟩ := h
  obtain ⟨ha, hb, -, -, -⟩ := h3 "k1"
    [("story", JVal.str "S"), ("analysis", JVal.obj [("main_story", JVal.str "S")])]
    rfl (by decide) rfl
  exact ⟨ha, hb⟩

/-- C8: with `overwrite_existing=False` the merge never replaces existing
content: for every item in the list, an already-present non-blank `story`
string, non-empty `details` list and non-empty `analysis` dict survive
unchanged, and every field other than `asset_key`, `story`, `details` and
`analysis` is never modified. -/
theorem c8_merge_no_overwrite (items : List JVal) (rootKvs bak : Dict)
    (out : List JVal) (st : MergeStats)
    (hbak : dget rootKvs "by_asset_key" = some (.obj bak))
    (hrun : merge_content_with_analysis (.arr items) (.obj rootKvs) false = .ok (out, st)) :
    ∀ (i : Nat) (kvs : Dict), items.get? i = some (.obj kvs) →
      ∃ kvs' : Dict, out.get? i = some (.obj kvs') ∧
        (∀ s : String, dget kvs "story" = some (.str s) → pyStrip s ≠ "" →
          dget kvs' "story" = some (.str s)) ∧
        (∀ xs : List JVal, dget kvs "details" = some (.arr xs) → xs ≠ [] →
          dget kvs' "details" = some (.arr xs)) ∧
        (∀ m : Dict, dget kvs "analysis" = some (.obj m) → m ≠ [] →
          dget kvs' "analysis" = some (.obj m)) ∧
        (∀ key : String, key ≠ "asset_key" → key ≠ "story" → key ≠ "details" →
          key ≠ "analysis" → dget kvs' key = dget kvs key) := by
  have hshape := mergeLoop_ok_shape bak false items out st
    (merge_run_to_loop items rootKvs bak false out st hbak hrun)
  obtain ⟨hmap, -, -⟩ := hshape
  subst hmap
  intro i kvs hi
  refine ⟨(mergeOne bak false kvs).1, ?_, ?_, ?_, ?_, ?_⟩
  · rw [List.get?_map, hi]
    rfl
  all_goals
    by_cases ht : typeIsVideoOrYoutube kvs
    case neg =>
      simp only [mergeOne, ht, Bool.not_false, if_true]
      intros
      trivial
    case pos => ?_
  -- matched or unchanged: case on the join outcome
  · intro s hs hsne
    cases hk : deriveAssetKeyFromItem kvs with
    | none => rw [mergeOne_unchanged_of_derive_none bak false kvs ht hk]; exact hs
    | some k =>
      by_cases hk2 : k = ""
      · rw [mergeOne_unchanged_of_no_record bak false kvs k ht hk (Or.inl hk2)]
        exact hs
      · cases hr : dget bak k with
        | none =>
          rw [mergeOne_unchanged_of_no_record bak false kvs k ht hk
            (Or.inr (fun rec hrr => by rw [hr] at hrr; cases hrr))]
          exact hs
        | some v =>
          cases v with
          | obj rec =>
            rw [mergeOne_matched bak false kvs rec k ht hk hk2 hr]
            exact applyUpdate_story_keep k rec kvs s hs hsne
          | null =>
            rw [mergeOne_unchanged_of_no_record bak false kvs k ht hk
              (Or.inr (fun rec hrr => by rw [hr] at hrr; cases hrr))]
            exact hs
          | bool b =>
            rw [mergeOne_unchanged_of_no_record bak false kvs k ht hk
              (Or.inr (fun rec hrr => by rw [hr] at hrr; cases hrr))]
            exact hs
          | num n =>
            rw [mergeOne_unchanged_of_no_record bak false kvs k ht hk
              (Or.inr (fun rec hrr => by rw [hr] at hrr; cases hrr))]
            exact hs
          | str s2 =>
            rw [mergeOne_unchanged_of_no_record bak false kvs k ht hk
              (Or.inr (fun rec hrr => by rw [hr] at hrr; cases hrr))]
            exact hs
          | arr xs =>
            rw [mergeOne_unchanged_of_no_record bak false kvs k ht hk
              (Or.inr (fun rec hrr => by rw [hr] at hrr; cases hrr))]
            exact hs
  · intro xs hs hsne
    cases hk : deriveAssetKeyFromItem kvs with
    | none => rw [mergeOne_unchanged_of_derive_none bak false kvs ht hk]; exact hs
    | some k =>
      by_cases hk2 : k = ""
      · rw [mergeOne_unchanged_of_no_record bak false kvs k ht hk (Or.inl hk2)]
        exact hs
      · cases hr : dget bak k with
        | none =>
          rw [mergeOne_unchanged_of_no_record bak false kvs k ht hk
            (Or.inr (fun rec hrr => by rw [hr] at hrr; cases hrr))]
          exact hs
        | some v =>
          cases v with
          | obj rec =>
            rw [mergeOne_matched bak false kvs rec k ht hk hk2 hr]
            exact applyUpdate_details_keep k rec kvs xs hs hsne
          | null =>
            rw [mergeOne_unchanged_of_no_record bak false kvs k ht hk
              (Or.inr (fun rec hrr => by rw [hr] at hrr; cases hrr))]
            exact hs
          | bool b =>
            rw [mergeOne_unchanged_of_no_record bak false kvs k ht hk
              (Or.inr (fun rec hrr => by rw [hr] at hrr; cases hrr))]
            exact hs
          | num n =>
            rw [mergeOne_unchanged_of_no_record bak false kvs k ht hk
              (Or.inr (fun rec hrr => by rw [hr] at hrr; cases hrr))]
            exact hs
          | str s2 =>
            rw [mergeOne_unchanged_of_no_record bak false kvs k ht hk
              (Or.inr (fun rec hrr => by rw [hr] at hrr; cases hrr))]
            exact hs
          | arr ys =>
            rw [mergeOne_unchanged_of_no_record bak false kvs k ht hk
              (Or.inr (fun rec hrr => by rw [hr] at hrr; cases hrr))]
            exact hs
  · intro m hs hsne
    cases hk : deriveAssetKeyFromItem kvs with
    | none => rw [mergeOne_unchanged_of_derive_none bak false kvs ht hk]; exact hs
    | some k =>
      by_cases hk2 : k = ""
      · rw [mergeOne_unchanged_of_no_record bak false kvs k ht hk (Or.inl hk2)]
        exact hs
      · cases hr : dget bak k with
        | none =>
          rw [mergeOne_unchanged_of_no_record bak false kvs k ht hk
            (Or.inr (fun rec hrr => by rw [hr] at hrr; cases hrr))]
          exact hs
        | some v =>
          cases v with
          | obj rec =>
            rw [mergeOne_matched bak false kvs rec k ht hk hk2 hr]
            exact applyUpdate_analysis_keep k rec kvs m hs hsne
          | null =>
            rw [mergeOne_unchanged_of_no_record bak false kvs k ht hk
              (Or.inr (fun rec hrr => by rw [hr] at hrr; cases hrr))]
            exact hs
          | bool b =>
            rw [mergeOne_unchanged_of_no_record bak false kvs k ht hk
              (Or.inr (fun rec hrr => by rw [hr] at hrr; cases hrr))]
            exact hs
          | num n =>
            rw [mergeOne_unchanged_of_no_record bak false kvs k ht hk
              (Or.inr (fun rec hrr => by rw [hr] at hrr; cases hrr))]
            exact hs
          | str s2 =>
            rw [mergeOne_unchanged_of_no_record bak false kvs k ht hk
              (Or.inr (fun rec hrr => by rw [hr] at hrr; cases hrr))]
            exact hs
          | arr ys =>
            rw [mergeOne_unchanged_of_no_record bak false kvs k ht hk
              (Or.inr (fun rec hrr => by rw [hr] at hrr; cases hrr))]
            exact hs
  · intro key hkey1 hkey2 hkey3 hkey4
    cases hk : deriveAssetKeyFromItem kvs with
    | none => rw [mergeOne_unchanged_of_derive_none bak false kvs ht hk]
    | some k =>
      by_cases hk2 : k = ""
      · rw [mergeOne_unchanged_of_no_record bak false kvs k ht hk (Or.inl hk2)]
      · cases hr : dget bak k with
        | none =>
          rw [mergeOne_unchanged_of_no_record bak false kvs k ht hk
            (Or.inr (fun rec hrr => by rw [hr] at hrr; cases hrr))]
        | some v =>
          cases v with
          | obj rec =>
            rw [mergeOne_matched bak false kvs rec k ht hk hk2 hr]
            exact applyUpdate_frame false k rec kvs key hkey1 hkey2 hkey3 hkey4
          | null =>
            rw [mergeOne_unchanged_of_no_record bak false kvs k ht hk
              (Or.inr (fun rec hrr => by rw [hr] at hrr; cases hrr))]
          | bool b =>
            rw [mergeOne_unchanged_of_no_record bak false kvs k ht hk
              (Or.inr (fun rec hrr => by rw [hr] at hrr; cases hrr))]
          | num n =>
            rw [mergeOne_unchanged_of_no_record bak false kvs k ht hk
              (Or.inr (fun rec hrr => by rw [hr] at hrr; cases hrr))]
          | str s2 =>
            rw [mergeOne_unchanged_of_no_record bak false kvs k ht hk
              (Or.inr (fun rec hrr => by rw [hr] at hrr; cases hrr))]
          | arr ys =>
            rw [mergeOne_unchanged_of_no_record bak false kvs k ht hk
              (Or.inr (fun rec hrr => by rw [hr] at hrr; cases hrr))]

/-- C8 witness: a matched item with existing content through the theorem. -/
theorem c8_merge_no_overwrite_witness :
    dget (mergeOne [("k1", JVal.obj [("story", JVal.str "New"), ("analysis",
        JVal.obj [("main_story", JVal.str "New")])])] false
      [("type", JVal.str "video"), ("asset_key", JVal.str "k1"),
       ("story", JVal.str "Old"), ("src", JVal.str "x.mp4")]).1 "story" =
      some (JVal.str "Old") ∧
    dget (mergeOne [("k1", JVal.obj [("story", JVal.str "New"), ("analysis",
        JVal.obj [("main_story", JVal.str "New")])])] false
      [("type", JVal.str "video"), ("asset_key", JVal.str "k1"),
       ("story", JVal.str "Old"), ("src", JVal.str "x.mp4")]).1 "src" =
      some (JVal.str "x.mp4") := by
  have h := c8_merge_no_overwrite
    [JVal.obj [("type", JVal.str "video"), ("asset_key", JVal.str "k1"),
      ("story", JVal.str "Old"), ("src", JVal.str "x.mp4")]]
    [("by_asset_key", JVal.obj [("k1", JVal.obj [("story", JVal.str "New"), ("analysis",
      JVal.obj [("main_story", JVal.str "New")])])])]
    [("k1", JVal.obj [("story", JVal.str "New"), ("analysis",
      JVal.obj [("main_story", JVal.str "New")])])]
    ([JVal.obj [("type", JVal.str "video"), ("asset_key", JVal.str "k1"),
      ("story", JVal.str "Old"), ("src", JVal.str "x.mp4")]].map
      (mergeItemVal [("k1", JVal.obj [("story", JVal.str "New"), ("analysis",
        JVal.obj [("main_story", JVal.str "New")])])] false))
    ⟨1, 0, 0, 0⟩ rfl rfl 0
    [("type", JVal.str "video"), ("asset_key", JVal.str "k1"),
     ("story", JVal.str "Old"), ("src", JVal.str "x.mp4")] rfl
  obtain ⟨kvs', hout, hstory, -, -, hframe⟩ := h
  have hcomp : ([JVal.obj [("type", JVal.str "video"), ("asset_key", JVal.str "k1"),
      ("story", JVal.str "Old"), ("src", JVal.str "x.mp4")]].map
      (mergeItemVal [("k1", JVal.obj [("story", JVal.str "New"), ("analysis",
        JVal.obj [("main_story", JVal.str "New")])])] false)).get? 0 =
      some (JVal.obj ((mergeOne [("k1", JVal.obj [("story", JVal.str "New"), ("analysis",
        JVal.obj [("main_story", JVal.str "New")])])] false
        [("type", JVal.str "video"), ("asset_key", JVal.str "k1"),
         ("story", JVal.str "Old"), ("src", JVal.str "x.mp4")]).1)) := rfl
  have heq : JVal.obj ((mergeOne [("k1", JVal.obj [("story", JVal.str "New"), ("analysis",
      JVal.obj [("main_story", JVal.str "New")])])] false
      [("type", JVal.str "video"), ("asset_key", JVal.str "k1"),
       ("story", JVal.str "Old"), ("src", JVal.str "x.mp4")]).1) = JVal.obj kvs' :=
    Option.some.inj (hcomp.symm.trans hout)
  cases heq
  exact ⟨hstory "Old" rfl (by decide), hframe "src" (by decide) (by decide) (by decide) (by decide)⟩

/-! ### Pipeline lemmas -/

/-- Unfold one loop iteration. -/
theorem runPaths_cons (cfg : Config) (w : String → PathWorld) (saveEvery : Nat)
    (alreadyDone : List String) (p : String) (rest : List String)
    (store : Store) (cnt : Nat) :
    runPaths cfg w saveEvery alreadyDone (p :: rest) store cnt =
      ((runPaths cfg w saveEvery alreadyDone rest
          (processOne cfg w saveEvery alreadyDone store cnt p).1
          (processOne cfg w saveEvery alreadyDone store cnt p).2.1).1,
       (runPaths cfg w saveEvery alreadyDone rest
          (processOne cfg w saveEvery alreadyDone store cnt p).1
          (processOne cfg w saveEvery alreadyDone store cnt p).2.1).2.1,
       (processOne cfg w saveEvery alreadyDone store cnt p).2.2 ++
         (runPaths cfg w saveEvery alreadyDone rest
            (processOne cfg w saveEvery alreadyDone store cnt p).1
            (processOne cfg w saveEvery alreadyDone store cnt p).2.1).2.2) := by
  rcases h1 : processOne cfg w saveEvery alreadyDone store cnt p with ⟨s', c', e⟩
  rcases h2 : runPaths cfg w saveEvery alreadyDone rest s' c' with ⟨s'', c'', e'⟩
  simp [runPaths, h1, h2]

/-- A skipped iteration: the asset key is already done. -/
theorem processOne_skip (cfg : Config) (w : String → PathWorld) (saveEvery : Nat)
    (alreadyDone : List String) (store : Store) (cnt : Nat) (p : String)
    (h : alreadyDone.contains (asset_key_from_path p) = true) :
    processOne cfg w saveEvery alreadyDone store cnt p =
      (store, cnt, [.skipLogged (asset_key_from_path p)]) := by
  have hm : asset_key_from_path p ∈ alreadyDone := List.elem_iff.mp h
  simp [processOne, h, hm]

/-- A processed iteration stores `storedRecord` under the stem key (whether
the attempt succeeded or raised). -/
theorem processOne_write (cfg : Config) (w : String → PathWorld) (saveEvery : Nat)
    (alreadyDone : List String) (store : Store) (cnt : Nat) (p : String)
    (h : alreadyDone.contains (asset_key_from_path p) = false) :
    (processOne cfg w saveEvery alreadyDone store cnt p).1 =
      Store.mk
        (dset store.byAssetKey (asset_key_from_path p) (storedRecord cfg w p))
        store.extra := by
  have hm : asset_key_from_path p ∉ alreadyDone := by
    intro hmem
    have h2 : alreadyDone.contains (asset_key_from_path p) = true :=
      List.elem_iff.mpr hmem
    rw [h2] at h
    cases h
  rcases hat : attemptVideo cfg (w p) (cfg.tempDir ++ "/" ++ make_temp_name p) p
    with ⟨res, evs⟩
  cases res with
  | ok rec =>
    simp only [processOne, h, Bool.false_eq_true, if_false, hat, storedRecord, hm]
    try split <;> simp [hat]
  | error msg =>
    simp only [processOne, h, Bool.false_eq_true, if_false, hat, storedRecord, hm]
    try simp [hat]

/-- Keys never written by the loop are untouched. -/
theorem runPaths_no_touch (cfg : Config) (w : String → PathWorld) (saveEvery : Nat)
    (alreadyDone : List String) (k : String) :
    ∀ (paths : List String) (store : Store) (cnt : Nat),
      (∀ q ∈ paths, asset_key_from_path q = k →
        alreadyDone.contains k = true) →
      dget (runPaths cfg w saveEvery alreadyDone paths store cnt).1.byAssetKey k =
        dget store.byAssetKey k := by
  intro paths
  induction paths with
  | nil => intro store cnt _; simp [runPaths]
  | cons p rest ih =>
    intro store cnt hq
    rw [runPaths_cons]
    have hrest := ih (processOne cfg w saveEvery alreadyDone store cnt p).1
      (processOne cfg w saveEvery alreadyDone store cnt p).2.1
      (fun q hqr => hq q (List.mem_cons_of_mem p hqr))
    refine hrest.trans ?_
    by_cases hsk : alreadyDone.contains (asset_key_from_path p) = true
    · rw [processOne_skip cfg w saveEvery alreadyDone store cnt p hsk]
    · have hsk' : alreadyDone.contains (asset_key_from_path p) = false := by
        revert hsk; cases alreadyDone.contains (asset_key_from_path p) <;> simp
      have hkp : asset_key_from_path p ≠ k := by
        intro hh
        have := hq p (List.mem_cons_self p rest) hh
        rw [hh, this] at hsk'
        cases hsk'
      rw [processOne_write cfg w saveEvery alreadyDone store cnt p hsk']
      exact dget_dset_ne _ _ _ _ (Ne.symm hkp)

/-- The loop preserves key uniqueness of `by_asset_key`. -/
theorem runPaths_nodup (cfg : Config) (w : String → PathWorld) (saveEvery : Nat)
    (alreadyDone : List String) :
    ∀ (paths : List String) (store : Store) (cnt : Nat),
      (store.byAssetKey.map Prod.fst).Nodup →
      ((runPaths cfg w saveEvery alreadyDone paths store cnt).1.byAssetKey.map
        Prod.fst).Nodup := by
  intro paths
  induction paths with
  | nil => intro store cnt h; simpa [runPaths] using h
  | cons p rest ih =>
    intro store cnt h
    rw [runPaths_cons]
    refine ih _ _ ?_
    by_cases hsk : alreadyDone.contains (asset_key_from_path p) = true
    · rw [processOne_skip cfg w saveEvery alreadyDone store cnt p hsk]
      exact h
    · have hsk' : alreadyDone.contains (asset_key_from_path p) = false := by
        revert hsk; cases alreadyDone.contains (asset_key_from_path p) <;> simp
      rw [processOne_write cfg w saveEvery alreadyDone store cnt p hsk']
      exact nodup_keys_dset _ _ _ h

/-- Last write wins: the final record under `k` comes from the last path in
the list whose stem is `k`. -/
theorem runPaths_last_wins (cfg : Config) (w : String → PathWorld) (saveEvery : Nat)
    (alreadyDone : List String) (k : String)
    (hk : alreadyDone.contains k = false) :
    ∀ (l1 : List String) (p : String) (l2 : List String) (store : Store) (cnt : Nat),
      asset_key_from_path p = k →
      (∀ q ∈ l2, asset_key_from_path q ≠ k) →
      dget (runPaths cfg w saveEvery alreadyDone (l1 ++ p :: l2) store cnt).1.byAssetKey k =
        some (storedRecord cfg w p) := by
  intro l1
  induction l1 with
  | nil =>
    intro p l2 store cnt hp hl2
    rw [List.nil_append, runPaths_cons]
    have huntouched := runPaths_no_touch cfg w saveEvery alreadyDone k l2
      (processOne cfg w saveEvery alreadyDone store cnt p).1
      (processOne cfg w saveEvery alreadyDone store cnt p).2.1
      (fun q hq hqe => absurd hqe (hl2 q hq))
    refine huntouched.trans ?_
    rw [processOne_write cfg w saveEvery alreadyDone store cnt p (hp ▸ hk)]
    rw [hp]
    exact dget_dset_self _ _ _
  | cons q l1' ih =>
    intro p l2 store cnt hp hl2
    rw [List.cons_append, runPaths_cons]
    exact ih p l2 _ _ hp hl2

/-- A successful pipeline run returns the loop's store (or, with no input
paths, the loaded store). -/
theorem pipeline_ok_store (cfg : Config) (w : String → PathWorld)
    (pathExists : String → Bool) (fileData : Option JVal)
    (videoPaths : List String) (saveEvery : Nat) (store0 final : Store) (evs : List Ev)
    (hload : load_existing_results fileData = .ok store0)
    (hrun : analyze_videos_with_gemini_pipeline cfg w pathExists fileData videoPaths saveEvery
      = .ok (final, evs)) :
    (videoPaths = [] ∧ final = store0) ∨
    final = (runPaths cfg w saveEvery (alreadyDoneKeys store0.byAssetKey)
      videoPaths store0 0).1 := by
  simp only [analyze_videos_with_gemini_pipeline, hload] at hrun
  by_cases hemp : videoPaths.isEmpty
  · left
    simp only [hemp, if_true] at hrun
    have h1 := congrArg (fun r => match r with | Except.ok pr => pr.1 | _ => store0) hrun
    simp only at h1
    exact ⟨List.isEmpty_iff.mp hemp, h1.symm⟩
  · right
    simp only [hemp, Bool.false_eq_true, if_false] at hrun
    by_cases hmiss : videoPaths.any (fun p => !pathExists p)
    · simp [hmiss] at hrun
    · simp only [hmiss, Bool.false_eq_true, if_false] at hrun
      rcases hrp : runPaths cfg w saveEvery (alreadyDoneKeys store0.byAssetKey)
        videoPaths store0 0 with ⟨store2, cnt2, evs2⟩
      split at hrun <;>
        · rw [hrp] at hrun
          have h2 := congrArg Prod.fst (Except.ok.inj hrun)
          exact h2.symm

/-- Membership in the `already_done` set. -/
theorem mem_alreadyDone (bak : Dict) (k : String) (rec : JVal)
    (hrec : dget bak k = some rec) (hdone : isDoneRec rec = true) :
    (alreadyDoneKeys bak).contains k = true := by
  rw [List.elem_iff]
  unfold alreadyDoneKeys
  exact List.mem_map_of_mem Prod.fst
    (List.mem_filter.mpr ⟨dget_some_mem bak k rec hrec, hdone⟩)

/-- C2: the pipeline is resume-safe.  When the loaded log already has a dict
record with a truthy `analysis` or `error` under an asset key, every input
video with that asset key is skipped entirely — the loop iteration returns
the store and counter untouched and traces only the skip event (no shrink,
upload or analysis step) — and the record under that key is unchanged in the
returned store. -/
theorem c2_resume_safe (cfg : Config) (w : String → PathWorld)
    (pathExists : String → Bool) (fileData : Option JVal)
    (videoPaths : List String) (saveEvery : Nat) (store0 final : Store)
    (evs : List Ev) (key : String) (rec : JVal)
    (hload : load_existing_results fileData = .ok store0)
    (hrec : dget store0.byAssetKey key = some rec)
    (hdone : isDoneRec rec = true)
    (hrun : analyze_videos_with_gemini_pipeline cfg w pathExists fileData videoPaths saveEvery
      = .ok (final, evs)) :
    (∀ (store : Store) (cnt : Nat) (p : String), asset_key_from_path p = key →
      processOne cfg w saveEvery (alreadyDoneKeys store0.byAssetKey) store cnt p
        = (store, cnt, [.skipLogged key])) ∧
    dget final.byAssetKey key = some rec := by
  have hcont : (alreadyDoneKeys store0.byAssetKey).contains key = true :=
    mem_alreadyDone store0.byAssetKey key rec hrec hdone
  constructor
  · intro store cnt p hp
    have h2 : (alreadyDoneKeys store0.byAssetKey).contains (asset_key_from_path p) = true := by
      rw [hp]
      exact hcont
    rw [processOne_skip cfg w saveEvery _ store cnt p h2, hp]
  · rcases pipeline_ok_store cfg w pathExists fileData videoPaths saveEvery store0 final evs
      hload hrun with ⟨-, rfl⟩ | rfl
    · exact hrec
    · rw [runPaths_no_touch cfg w saveEvery _ key videoPaths store0 0
        (fun q _ hqe => hqe ▸ hcont)]
      exact hrec

/-- C2 witness: a concrete resume through the theorem. -/
theorem c2_resume_safe_witness :
    processOne ⟨"/tmp", "m", 5, 600, false⟩
        (fun _ => ⟨false, 0, 0, .ok (), .error "x", .ok .noParsed, "t"⟩) 1
        (alreadyDoneKeys [("cat", JVal.obj [("error", JVal.str "old")])])
        ⟨[("cat", JVal.obj [("error", JVal.str "old")])], []⟩ 0 "/v/cat.mp4"
      = (⟨[("cat", JVal.obj [("error", JVal.str "old")])], []⟩, 0, [.skipLogged "cat"]) ∧
    dget [("cat", JVal.obj [("error", JVal.str "old")])] "cat"
      = some (JVal.obj [("error", JVal.str "old")]) := by
  have h := c2_resume_safe ⟨"/tmp", "m", 5, 600, false⟩
    (fun _ => ⟨false, 0, 0, .ok (), .error "x", .ok .noParsed, "t"⟩)
    (fun _ => true)
    (some (.obj [("by_asset_key", .obj [("cat", .obj [("error", .str "old")])])]))
    ["/v/cat.mp4"] 1
    ⟨[("cat", JVal.obj [("error", JVal.str "old")])], []⟩
    ⟨[("cat", JVal.obj [("error", JVal.str "old")])], []⟩
    [.skipLogged "cat"] "cat" (JVal.obj [("error", JVal.str "old")])
    rfl rfl rfl rfl
  exact ⟨h.1 ⟨[("cat", JVal.obj [("error", JVal.str "old")])], []⟩ 0 "/v/cat.mp4" rfl, h.2⟩

/-- C6: results are deduplicated by asset key, not by full path.  Key
uniqueness of `by_asset_key` is preserved; a processed video's record is
stored under the stem of its filename (ignoring its directory); and when two
input paths share a stem, the record of the later-processed path is what the
returned store holds under that key. -/
theorem c6_dedup_by_key (cfg : Config) (w : String → PathWorld)
    (pathExists : String → Bool) (fileData : Option JVal)
    (videoPaths : List String) (saveEvery : Nat) (store0 final : Store)
    (evs : List Ev)
    (hload : load_existing_results fileData = .ok store0)
    (hrun : analyze_videos_with_gemini_pipeline cfg w pathExists fileData videoPaths saveEvery
      = .ok (final, evs)) :
    ((store0.byAssetKey.map Prod.fst).Nodup → (final.byAssetKey.map Prod.fst).Nodup) ∧
    (∀ (store : Store) (cnt : Nat) (p : String),
      (alreadyDoneKeys store0.byAssetKey).contains (asset_key_from_path p) = false →
      asset_key_from_path p = pyStemName (pathName p) ∧
      (processOne cfg w saveEvery (alreadyDoneKeys store0.byAssetKey) store cnt p).1.byAssetKey
        = dset store.byAssetKey (asset_key_from_path p) (storedRecord cfg w p)) ∧
    (∀ (l1 : List String) (p : String) (l2 : List String),
      videoPaths = l1 ++ p :: l2 →
      (alreadyDoneKeys store0.byAssetKey).contains (asset_key_from_path p) = false →
      (∀ q ∈ l2, asset_key_from_path q ≠ asset_key_from_path p) →
      dget final.byAssetKey (asset_key_from_path p) = some (storedRecord cfg w p)) := by
  refine ⟨?_, ?_, ?_⟩
  · intro hnd
    rcases pipeline_ok_store cfg w pathExists fileData videoPaths saveEvery store0 final evs
      hload hrun with ⟨-, rfl⟩ | rfl
    · exact hnd
    · exact runPaths_nodup cfg w saveEvery _ videoPaths store0 0 hnd
  · intro store cnt p hnew
    refine ⟨rfl, ?_⟩
    rw [processOne_write cfg w saveEvery _ store cnt p hnew]
  · intro l1 p l2 hsplit hnew hlast
    rcases pipeline_ok_store cfg w pathExists fileData videoPaths saveEvery store0 final evs
      hload hrun with ⟨hemp, rfl⟩ | rfl
    · rw [hsplit] at hemp
      cases (List.append_eq_nil.mp hemp).2
    · rw [hsplit]
      exact runPaths_last_wins cfg w saveEvery _ (asset_key_from_path p) hnew
        l1 p l2 store0 0 rfl hlast

/-- C6 witness: two paths with the same stem in different directories; the
later one's record wins. -/
theorem c6_dedup_by_key_witness :
    dget ((analyze_videos_with_gemini_pipeline ⟨"/tmp", "m", 5, 600, false⟩
        (fun p => if p = "/a/cat.mp4"
          then ⟨false, 0, 0, .ok (), .ok ⟨some "u", fun _ => some "ACTIVE"⟩,
            .ok (.asVideoAnalysis ⟨.clear, "S", none⟩), "t1"⟩
          else ⟨false, 0, 0, .ok (), .error "boom", .ok .noParsed, "t2"⟩)
        (fun _ => true) none ["/a/cat.mp4", "/b/cat.mp4"] 1).toOption.get
        (by rfl)).1.byAssetKey "cat"
      = some (storedRecord ⟨"/tmp", "m", 5, 600, false⟩
        (fun p => if p = "/a/cat.mp4"
          then ⟨false, 0, 0, .ok (), .ok ⟨some "u", fun _ => some "ACTIVE"⟩,
            .ok (.asVideoAnalysis ⟨.clear, "S", none⟩), "t1"⟩
          else ⟨false, 0, 0, .ok (), .error "boom", .ok .noParsed, "t2"⟩) "/b/cat.mp4") := by
  have h := c6_dedup_by_key ⟨"/tmp", "m", 5, 600, false⟩
    (fun p => if p = "/a/cat.mp4"
      then ⟨false, 0, 0, .ok (), .ok ⟨some "u", fun _ => some "ACTIVE"⟩,
        .ok (.asVideoAnalysis ⟨.clear, "S", none⟩), "t1"⟩
      else ⟨false, 0, 0, .ok (), .error "boom", .ok .noParsed, "t2"⟩)
    (fun _ => true) none ["/a/cat.mp4", "/b/cat.mp4"] 1
    ⟨[], []⟩
    ((analyze_videos_with_gemini_pipeline ⟨"/tmp", "m", 5, 600, false⟩
      (fun p => if p = "/a/cat.mp4"
        then ⟨false, 0, 0, .ok (), .ok ⟨some "u", fun _ => some "ACTIVE"⟩,
          .ok (.asVideoAnalysis ⟨.clear, "S", none⟩), "t1"⟩
        else ⟨false, 0, 0, .ok (), .error "boom", .ok .noParsed, "t2"⟩)
      (fun _ => true) none ["/a/cat.mp4", "/b/cat.mp4"] 1).toOption.get (by rfl)).1
    ((analyze_videos_with_gemini_pipeline ⟨"/tmp", "m", 5, 600, false⟩
      (fun p => if p = "/a/cat.mp4"
        then ⟨false, 0, 0, .ok (), .ok ⟨some "u", fun _ => some "ACTIVE"⟩,
          .ok (.asVideoAnalysis ⟨.clear, "S", none⟩), "t1"⟩
        else ⟨false, 0, 0, .ok (), .error "boom", .ok .noParsed, "t2"⟩)
      (fun _ => true) none ["/a/cat.mp4", "/b/cat.mp4"] 1).toOption.get (by rfl)).2
    rfl (by rfl)
  exact h.2.2 ["/a/cat.mp4"] "/b/cat.mp4" [] rfl rfl (by simp)

/-! ### wait_until_ready and analyze_video lemmas -/

theorem waitAux_ok_props (pollS maxWaitS : Nat) (stateAt : Nat → Option String) :
    ∀ (fuel n m : Nat), waitAux pollS maxWaitS stateAt n fuel = .ok m →
      n ≤ m ∧ stateTruthy (stateAt m) = true ∧
      pyUpper ((stateAt m).getD "") ≠ "PROCESSING" ∧
      pyUpper ((stateAt m).getD "") ≠ "FAILED" ∧
      ∀ j, n ≤ j → j < m →
        ¬(stateTruthy (stateAt j) = true ∧ pyUpper ((stateAt j).getD "") ≠ "PROCESSING") := by
  intro fuel
  induction fuel with
  | zero => intro n m h; simp [waitAux] at h
  | succ f ih =>
    intro n m h
    simp only [waitAux] at h
    split at h
    · cases h
    · split at h
      · rename_i hnotfail hready
        have hm : n = m := by
          simpa using h
        subst hm
        refine ⟨le_refl n, hready.1, hready.2, ?_, ?_⟩
        · intro hf
          exact hnotfail ⟨hready.1, hf⟩
        · intro j h1 h2
          omega
      · split at h
        · cases h
        · rename_i hnotfail hnotready hnotout
          obtain ⟨h1, h2, h3, h4, h5⟩ := ih (n + 1) m h
          refine ⟨by omega, h2, h3, h4, ?_⟩
          intro j hj1 hj2
          rcases Nat.eq_or_lt_of_le hj1 with rfl | hj
          · exact hnotready
          · exact h5 j hj hj2

theorem waitAux_error_props (pollS maxWaitS : Nat) (stateAt : Nat → Option String) :
    ∀ (fuel n : Nat) (msg : String), waitAux pollS maxWaitS stateAt n fuel = .error msg →
      msg = waitTimeoutMsg maxWaitS ∨
      ∃ (j : Nat) (s : String), stateAt j = some s ∧ s ≠ "" ∧ pyUpper s = "FAILED" ∧
        msg = waitFailedMsg s := by
  intro fuel
  induction fuel with
  | zero =>
    intro n msg h
    simp only [waitAux, Except.error.injEq] at h
    exact Or.inl h.symm
  | succ f ih =>
    intro n msg h
    simp only [waitAux] at h
    split at h
    · rename_i hfail
      right
      obtain ⟨htr, hup⟩ := hfail
      cases hst : stateAt n with
      | none => rw [hst] at htr; simp [stateTruthy] at htr
      | some s =>
        refine ⟨n, s, hst, ?_, ?_, ?_⟩
        · rw [hst] at htr; simpa [stateTruthy] using htr
        · rw [hst] at hup; simpa using hup
        · rw [hst] at h; simp only [Option.getD_some, Except.error.injEq] at h
          exact h.symm
    · split at h
      · cases h
      · split at h
        · simp only [Except.error.injEq] at h
          exact Or.inl h.symm
        · exact ih (n + 1) msg h

theorem wait_until_ready_ok (pollS maxWaitS : Nat) (stateAt : Nat → Option String)
    (n : Nat) (h : wait_until_ready pollS maxWaitS stateAt = .ok n) :
    stateTruthy (stateAt n) = true ∧
    pyUpper ((stateAt n).getD "") ≠ "PROCESSING" ∧
    pyUpper ((stateAt n).getD "") ≠ "FAILED" ∧
    ∀ j, j < n →
      ¬(stateTruthy (stateAt j) = true ∧ pyUpper ((stateAt j).getD "") ≠ "PROCESSING") := by
  obtain ⟨-, h2, h3, h4, h5⟩ :=
    waitAux_ok_props pollS maxWaitS stateAt (maxWaitS + 2) 0 n h
  exact ⟨h2, h3, h4, fun j hj => h5 j (Nat.zero_le j) hj⟩

theorem wait_until_ready_error (pollS maxWaitS : Nat) (stateAt : Nat → Option String)
    (msg : String) (h : wait_until_ready pollS maxWaitS stateAt = .error msg) :
    msg = waitTimeoutMsg maxWaitS ∨
    ∃ (j : Nat) (s : String), stateAt j = some s ∧ s ≠ "" ∧ pyUpper s = "FAILED" ∧
      msg = waitFailedMsg s :=
  waitAux_error_props pollS maxWaitS stateAt (maxWaitS + 2) 0 msg h

/-- Destructuring a successful `analyze_video`: which world outcomes it
implies, the exact event order, and the returned record. -/
theorem analyze_video_ok (cfg : Config) (pw : PathWorld) (shrunkPath origPath : String)
    (rec : Dict) (evs : List Ev)
    (h : analyze_video cfg pw shrunkPath origPath = (.ok rec, evs)) :
    evs = [.uploadDone origPath, .pollDone origPath, .parseDone origPath] ∧
    ∃ (up : Uploaded) (n : Nat) (gp : GenParsed) (va : VideoAnalysis),
      pw.uploadResult = .ok up ∧
      wait_until_ready cfg.uploadPollS cfg.processingMaxWaitS up.stateAt = .ok n ∧
      pw.genResult = .ok gp ∧
      parsedToVA gp = .ok va ∧
      rec = successRec cfg pw up va shrunkPath origPath := by
  cases hup : pw.uploadResult with
  | error m => simp [analyze_video, hup] at h
  | ok up =>
    cases hwait : wait_until_ready cfg.uploadPollS cfg.processingMaxWaitS up.stateAt with
    | error m => simp [analyze_video, hup, hwait] at h
    | ok n =>
      cases hgen : pw.genResult with
      | error m => simp [analyze_video, hup, hwait, hgen] at h
      | ok gp =>
        cases hpva : parsedToVA gp with
        | error m => simp [analyze_video, hup, hwait, hgen, hpva] at h
        | ok va =>
          simp only [analyze_video, hup, hwait, hgen, hpva, Prod.mk.injEq,
            Except.ok.injEq] at h
          exact ⟨h.2.symm, up, n, gp, va, rfl, hwait, rfl, hpva, h.1.symm⟩

/-- Destructuring a successful `attemptVideo`: the step order of the claim
(reuse-or-shrink, then the analyze steps). -/
theorem attemptVideo_ok (cfg : Config) (pw : PathWorld) (shrunkPath origPath : String)
    (rec : Dict) (evs : List Ev)
    (h : attemptVideo cfg pw shrunkPath origPath = (.ok rec, evs)) :
    evs = [(if pw.shrunkExists ∧ pw.origMtime ≤ pw.shrunkMtime
            then Ev.reuseShrunk origPath else Ev.shrinkRun origPath),
           .uploadDone origPath, .pollDone origPath, .parseDone origPath] ∧
    (¬(pw.shrunkExists = true ∧ pw.origMtime ≤ pw.shrunkMtime) →
      pw.shrinkResult = .ok ()) ∧
    ∃ (up : Uploaded) (n : Nat) (gp : GenParsed) (va : VideoAnalysis),
      pw.uploadResult = .ok up ∧
      wait_until_ready cfg.uploadPollS cfg.processingMaxWaitS up.stateAt = .ok n ∧
      pw.genResult = .ok gp ∧
      parsedToVA gp = .ok va ∧
      rec = successRec cfg pw up va shrunkPath origPath := by
  by_cases hre : pw.shrunkExists = true ∧ pw.origMtime ≤ pw.shrunkMtime
  · simp only [attemptVideo, hre, and_self, if_true] at h
    rcases hav : analyze_video cfg pw shrunkPath origPath with ⟨res, evs'⟩
    rw [hav] at h
    cases res with
    | error m => simp at h
    | ok rec' =>
      simp only [Prod.mk.injEq, Except.ok.injEq] at h
      obtain ⟨rfl, rfl⟩ := h
      obtain ⟨hevs, hrest⟩ := analyze_video_ok cfg pw shrunkPath origPath rec' evs' hav
      subst hevs
      exact ⟨by simp [hre], fun hc => absurd hre hc, hrest⟩
  · cases hsh : pw.shrinkResult with
    | error m => simp [attemptVideo, hre, hsh] at h
    | ok u =>
      cases u
      simp only [attemptVideo, hre, if_false, hsh] at h
      rcases hav : analyze_video cfg pw shrunkPath origPath with ⟨res, evs'⟩
      rw [hav] at h
      cases res with
      | error m => simp at h
      | ok rec' =>
        simp only [Prod.mk.injEq, Except.ok.injEq] at h
        obtain ⟨rfl, rfl⟩ := h
        obtain ⟨hevs, hrest⟩ := analyze_video_ok cfg pw shrunkPath origPath rec' evs' hav
        subst hevs
        exact ⟨by simp [hre], fun _ => rfl, hrest⟩

/-- The `except` branch of the loop body, in full: the error record replaces
the key's entry, the whole store is written immediately, and the counter is
left alone. -/
theorem processOne_error (cfg : Config) (w : String → PathWorld) (saveEvery : Nat)
    (alreadyDone : List String) (store : Store) (cnt : Nat) (p msg : String)
    (evs : List Ev)
    (hnd : alreadyDone.contains (asset_key_from_path p) = false)
    (hat : attemptVideo cfg (w p) (cfg.tempDir ++ "/" ++ make_temp_name p) p
      = (.error msg, evs)) :
    processOne cfg w saveEvery alreadyDone store cnt p =
      (Store.mk
        (dset store.byAssetKey (asset_key_from_path p)
          (.obj (errRecord cfg (w p) (asset_key_from_path p)
            (cfg.tempDir ++ "/" ++ make_temp_name p) p msg)))
        store.extra,
       cnt,
       evs ++ [.storeErr (asset_key_from_path p),
               .writeLog
                 (dset store.byAssetKey (asset_key_from_path p)
                   (.obj (errRecord cfg (w p) (asset_key_from_path p)
                     (cfg.tempDir ++ "/" ++ make_temp_name p) p msg)))
                 store.extra]) := by
  have hm : asset_key_from_path p ∉ alreadyDone := by
    intro hmem
    have h2 : alreadyDone.contains (asset_key_from_path p) = true :=
      List.elem_iff.mpr hmem
    rw [h2] at hnd
    cases hnd
  simp [processOne, hnd, hm, hat]

/-- The success branch of the loop body, in full: the record gets the
`asset_key` stamp, is stored under the key, and is flushed when the
`save_every` threshold is reached. -/
theorem processOne_ok (cfg : Config) (w : String → PathWorld) (saveEvery : Nat)
    (alreadyDone : List String) (store : Store) (cnt : Nat) (p : String)
    (rec : Dict) (evs : List Ev)
    (hnd : alreadyDone.contains (asset_key_from_path p) = false)
    (hat : attemptVideo cfg (w p) (cfg.tempDir ++ "/" ++ make_temp_name p) p
      = (.ok rec, evs)) :
    processOne cfg w saveEvery alreadyDone store cnt p =
      (Store.mk
        (dset store.byAssetKey (asset_key_from_path p)
          (.obj (dset rec "asset_key" (.str (asset_key_from_path p)))))
        store.extra,
       if saveEvery ≤ cnt + 1 then 0 else cnt + 1,
       evs ++ (if saveEvery ≤ cnt + 1
               then [.persist (asset_key_from_path p),
                     .writeLog
                       (dset store.byAssetKey (asset_key_from_path p)
                         (.obj (dset rec "asset_key" (.str (asset_key_from_path p)))))
                       store.extra]
               else [.persist (asset_key_from_path p)])) := by
  have hm : asset_key_from_path p ∉ alreadyDone := by
    intro hmem
    have h2 : alreadyDone.contains (asset_key_from_path p) = true :=
      List.elem_iff.mpr hmem
    rw [h2] at hnd
    cases hnd
  by_cases hsave : saveEvery ≤ cnt + 1
  · simp [processOne, hnd, hm, hat, hsave]
  · simp [processOne, hnd, hm, hat, hsave]

/-- C3: when processing a single video raises, the pipeline stores an error
record under that video's asset key — carrying the asset key, original
filename and path, timestamp, model id and the exception message, and no
`analysis` field — immediately writes the entire store to the log, leaves
the save counter alone, and the loop continues with the remaining videos
(the traced run of `p :: rest` is the error iteration followed by the run of
`rest`, not an abort). -/
theorem c3_error_record (cfg : Config) (w : String → PathWorld) (saveEvery : Nat)
    (alreadyDone : List String) (store : Store) (cnt : Nat) (p msg : String)
    (evs : List Ev) (rest : List String)
    (hnd : alreadyDone.contains (asset_key_from_path p) = false)
    (hat : attemptVideo cfg (w p) (cfg.tempDir ++ "/" ++ make_temp_name p) p
      = (.error msg, evs)) :
    dget (errRecord cfg (w p) (asset_key_from_path p)
        (cfg.tempDir ++ "/" ++ make_temp_name p) p msg) "asset_key"
      = some (.str (asset_key_from_path p)) ∧
    dget (errRecord cfg (w p) (asset_key_from_path p)
        (cfg.tempDir ++ "/" ++ make_temp_name p) p msg) "original_filename"
      = some (.str (pathName p)) ∧
    dget (errRecord cfg (w p) (asset_key_from_path p)
        (cfg.tempDir ++ "/" ++ make_temp_name p) p msg) "original_path"
      = some (.str p) ∧
    dget (errRecord cfg (w p) (asset_key_from_path p)
        (cfg.tempDir ++ "/" ++ make_temp_name p) p msg) "timestamp"
      = some (.str (w p).timestamp) ∧
    dget (errRecord cfg (w p) (asset_key_from_path p)
        (cfg.tempDir ++ "/" ++ make_temp_name p) p msg) "model_id"
      = some (.str cfg.modelId) ∧
    dget (errRecord cfg (w p) (asset_key_from_path p)
        (cfg.tempDir ++ "/" ++ make_temp_name p) p msg) "error"
      = some (.str msg) ∧
    dget (errRecord cfg (w p) (asset_key_from_path p)
        (cfg.tempDir ++ "/" ++ make_temp_name p) p msg) "analysis" = none ∧
    processOne cfg w saveEvery alreadyDone store cnt p =
      (Store.mk
        (dset store.byAssetKey (asset_key_from_path p)
          (.obj (errRecord cfg (w p) (asset_key_from_path p)
            (cfg.tempDir ++ "/" ++ make_temp_name p) p msg)))
        store.extra,
       cnt,
       evs ++ [.storeErr (asset_key_from_path p),
               .writeLog
                 (dset store.byAssetKey (asset_key_from_path p)
                   (.obj (errRecord cfg (w p) (asset_key_from_path p)
                     (cfg.tempDir ++ "/" ++ make_temp_name p) p msg)))
                 store.extra]) ∧
    runPaths cfg w saveEvery alreadyDone (p :: rest) store cnt =
      ((runPaths cfg w saveEvery alreadyDone rest
          (processOne cfg w saveEvery alreadyDone store cnt p).1
          (processOne cfg w saveEvery alreadyDone store cnt p).2.1).1,
       (runPaths cfg w saveEvery alreadyDone rest
          (processOne cfg w saveEvery alreadyDone store cnt p).1
          (processOne cfg w saveEvery alreadyDone store cnt p).2.1).2.1,
       (processOne cfg w saveEvery alreadyDone store cnt p).2.2 ++
         (runPaths cfg w saveEvery alreadyDone rest
            (processOne cfg w saveEvery alreadyDone store cnt p).1
            (processOne cfg w saveEvery alreadyDone store cnt p).2.1).2.2) := by
  refine ⟨rfl, rfl, rfl, rfl, rfl, rfl, rfl, ?_, ?_⟩
  · exact processOne_error cfg w saveEvery alreadyDone store cnt p msg evs hnd hat
  · exact runPaths_cons cfg w saveEvery alreadyDone p rest store cnt

/-- C3 witness: a concrete failing upload through the theorem. -/
theorem c3_error_record_witness :
    dget (errRecord ⟨"/tmp", "m", 5, 600, false⟩
        ⟨false, 0, 0, .ok (), .error "boom", .ok .noParsed, "t2"⟩
        "cat" ("/tmp" ++ "/" ++ make_temp_name "/v/cat.mp4") "/v/cat.mp4" "boom") "error"
      = some (.str "boom") ∧
    dget (errRecord ⟨"/tmp", "m", 5, 600, false⟩
        ⟨false, 0, 0, .ok (), .error "boom", .ok .noParsed, "t2"⟩
        "cat" ("/tmp" ++ "/" ++ make_temp_name "/v/cat.mp4") "/v/cat.mp4" "boom") "analysis"
      = none := by
  have h := c3_error_record ⟨"/tmp", "m", 5, 600, false⟩
    (fun _ => ⟨false, 0, 0, .ok (), .error "boom", .ok .noParsed, "t2"⟩) 1 []
    ⟨[], []⟩ 0 "/v/cat.mp4" "boom" [.shrinkRun "/v/cat.mp4"] [] rfl rfl
  exact ⟨h.2.2.2.2.2.1, h.2.2.2.2.2.2.1⟩

/-- C5: for a video that is not already logged and whose attempt succeeds,
the traced steps are, in order: shrink (or reuse an existing shrunk file
whose mtime is at least the original's), upload, poll until ready, parse,
and persist under the asset key derived from the original filename stem;
the polling loop returns only on a truthy non-`PROCESSING` state and raises
only with the `FAILED` or max-wait error; and the parsed record's `analysis`
is the dump of a schema-validated `VideoAnalysis`. -/
theorem c5_pipeline_order (cfg : Config) (w : String → PathWorld) (saveEvery : Nat)
    (alreadyDone : List String) (store : Store) (cnt : Nat) (p : String)
    (rec : Dict) (evs : List Ev)
    (hnd : alreadyDone.contains (asset_key_from_path p) = false)
    (hat : attemptVideo cfg (w p) (cfg.tempDir ++ "/" ++ make_temp_name p) p
      = (.ok rec, evs)) :
    asset_key_from_path p = pyStemName (pathName p) ∧
    evs = [(if (w p).shrunkExists ∧ (w p).origMtime ≤ (w p).shrunkMtime
            then Ev.reuseShrunk p else Ev.shrinkRun p),
           .uploadDone p, .pollDone p, .parseDone p] ∧
    (¬((w p).shrunkExists = true ∧ (w p).origMtime ≤ (w p).shrunkMtime) →
      (w p).shrinkResult = .ok ()) ∧
    (∃ (up : Uploaded) (n : Nat) (gp : GenParsed) (va : VideoAnalysis),
      (w p).uploadResult = .ok up ∧
      wait_until_ready cfg.uploadPollS cfg.processingMaxWaitS up.stateAt = .ok n ∧
      (w p).genResult = .ok gp ∧
      parsedToVA gp = .ok va ∧
      rec = successRec cfg (w p) up va (cfg.tempDir ++ "/" ++ make_temp_name p) p ∧
      dget rec "analysis" = some (.obj va.modelDump)) ∧
    processOne cfg w saveEvery alreadyDone store cnt p =
      (Store.mk
        (dset store.byAssetKey (asset_key_from_path p)
          (.obj (dset rec "asset_key" (.str (asset_key_from_path p)))))
        store.extra,
       if saveEvery ≤ cnt + 1 then 0 else cnt + 1,
       evs ++ (if saveEvery ≤ cnt + 1
               then [.persist (asset_key_from_path p),
                     .writeLog
                       (dset store.byAssetKey (asset_key_from_path p)
                         (.obj (dset rec "asset_key" (.str (asset_key_from_path p)))))
                       store.extra]
               else [.persist (asset_key_from_path p)])) ∧
    (∀ (pollS maxWaitS : Nat) (stateAt : Nat → Option String) (n : Nat),
      wait_until_ready pollS maxWaitS stateAt = .ok n →
      stateTruthy (stateAt n) = true ∧
      pyUpper ((stateAt n).getD "") ≠ "PROCESSING" ∧
      pyUpper ((stateAt n).getD "") ≠ "FAILED" ∧
      ∀ j, j < n →
        ¬(stateTruthy (stateAt j) = true ∧
          pyUpper ((stateAt j).getD "") ≠ "PROCESSING")) ∧
    (∀ (pollS maxWaitS : Nat) (stateAt : Nat → Option String) (msg : String),
      wait_until_ready pollS maxWaitS stateAt = .error msg →
      msg = waitTimeoutMsg maxWaitS ∨
      ∃ (j : Nat) (s : String), stateAt j = some s ∧ s ≠ "" ∧ pyUpper s = "FAILED" ∧
        msg = waitFailedMsg s) := by
  obtain ⟨hevs, hshrink, up, n, gp, va, hup, hwait, hgen, hpva, hrec⟩ :=
    attemptVideo_ok cfg (w p) (cfg.tempDir ++ "/" ++ make_temp_name p) p rec evs hat
  refine ⟨rfl, hevs, hshrink, ⟨up, n, gp, va, hup, hwait, hgen, hpva, hrec, ?_⟩, ?_, ?_, ?_⟩
  · rw [hrec]
    rfl
  · exact processOne_ok cfg w saveEvery alreadyDone store cnt p rec evs hnd hat
  · intro pollS maxWaitS stateAt n' h
    exact wait_until_ready_ok pollS maxWaitS stateAt n' h
  · intro pollS maxWaitS stateAt msg h
    exact wait_until_ready_error pollS maxWaitS stateAt msg h

/-- C5 witness: a concrete successful run through the theorem. -/
theorem c5_pipeline_order_witness :
    asset_key_from_path "/v/cat.mp4" = pyStemName (pathName "/v/cat.mp4") ∧
    ((attemptVideo ⟨"/tmp", "m", 5, 600, false⟩
        ⟨false, 0, 0, .ok (), .ok ⟨some "u", fun k => if k < 2 then some "PROCESSING" else some "ACTIVE"⟩,
          .ok (.asVideoAnalysis ⟨.clear, "S", none⟩), "t1"⟩
        ("/tmp" ++ "/" ++ make_temp_name "/v/cat.mp4") "/v/cat.mp4").2
      = [Ev.shrinkRun "/v/cat.mp4", .uploadDone "/v/cat.mp4", .pollDone "/v/cat.mp4",
         .parseDone "/v/cat.mp4"]) := by
  have h := c5_pipeline_order ⟨"/tmp", "m", 5, 600, false⟩
    (fun _ => ⟨false, 0, 0, .ok (),
      .ok ⟨some "u", fun k => if k < 2 then some "PROCESSING" else some "ACTIVE"⟩,
      .ok (.asVideoAnalysis ⟨.clear, "S", none⟩), "t1"⟩) 1 [] ⟨[], []⟩ 0 "/v/cat.mp4"
    (successRec ⟨"/tmp", "m", 5, 600, false⟩
      ⟨false, 0, 0, .ok (),
        .ok ⟨some "u", fun k => if k < 2 then some "PROCESSING" else some "ACTIVE"⟩,
        .ok (.asVideoAnalysis ⟨.clear, "S", none⟩), "t1"⟩
      ⟨some "u", fun k => if k < 2 then some "PROCESSING" else some "ACTIVE"⟩
      ⟨.clear, "S", none⟩ ("/tmp" ++ "/" ++ make_temp_name "/v/cat.mp4") "/v/cat.mp4")
    ((attemptVideo ⟨"/tmp", "m", 5, 600, false⟩
      ⟨false, 0, 0, .ok (),
        .ok ⟨some "u", fun k => if k < 2 then some "PROCESSING" else some "ACTIVE"⟩,
        .ok (.asVideoAnalysis ⟨.clear, "S", none⟩), "t1"⟩
      ("/tmp" ++ "/" ++ make_temp_name "/v/cat.mp4") "/v/cat.mp4").2)
    rfl rfl
  refine ⟨h.1, ?_⟩
  rw [h.2.1]
  rfl

theorem parseVAStatus_ok (v : JVal) (st : VAStatus) (h : parseVAStatus v = .ok st) :
    v = .str st.toStr := by
  unfold parseVAStatus at h
  split at h
  · cases h; rfl
  · cases h; rfl
  · cases h; rfl
  · cases h

theorem modelValidate_sound (d : Dict) (va : VideoAnalysis)
    (h : VideoAnalysis.modelValidate d = .ok va) :
    dget d "status" = some (.str va.status.toStr) ∧
    dget d "main_story" = some (.str va.main_story) := by
  unfold VideoAnalysis.modelValidate at h
  split at h
  · cases h
  · rename_i sv hsv
    split at h
    · cases h
    · rename_i status hstatus
      split at h
      · rename_i s hs
        split at h
        · rename_i kd hkd
          simp only [Except.ok.injEq] at h
          subst h
          constructor
          · rw [hsv, parseVAStatus_ok sv status hstatus]
          · exact hs
        · cases h
      · cases h
      · cases h

theorem modelDump_shape (va : VideoAnalysis) :
    dget va.modelDump "status" = some (.str va.status.toStr) ∧
    dget va.modelDump "main_story" = some (.str va.main_story) ∧
    (va.status.toStr = "clear" ∨ va.status.toStr = "inconclusive" ∨
      va.status.toStr = "multiple_subjects") ∧
    (dget va.modelDump "kitten_details" = some .null ∨
     ∃ l : List String, va.kitten_details = some l ∧
       dget va.modelDump "kitten_details" = some (.arr (l.map JVal.str))) := by
  refine ⟨rfl, rfl, ?_, ?_⟩
  · cases va.status <;> simp [VAStatus.toStr]
  · cases hkd : va.kitten_details with
    | none =>
      left
      simp [VideoAnalysis.modelDump, hkd, dget]
    | some l =>
      right
      exact ⟨l, rfl, by simp [VideoAnalysis.modelDump, hkd, dget]⟩

/-- C4: `analyze_video` returns a record whose `analysis` field is the dump
of a `VideoAnalysis` validated against the response schema — `status` one of
`clear`/`inconclusive`/`multiple_subjects`, `main_story` a string,
`kitten_details` null or a list of strings; a dict `resp.parsed` goes
through `model_validate`, whose success pins the dict's `status` and
`main_story`; and when the response has no parsed content or the parsed
value cannot be validated, `analyze_video` raises instead of returning. -/
theorem c4_analyze_schema (cfg : Config) (pw : PathWorld) (shrunkPath origPath : String) :
    (∀ (rec : Dict) (evs : List Ev),
      analyze_video cfg pw shrunkPath origPath = (.ok rec, evs) →
      ∃ va : VideoAnalysis,
        dget rec "analysis" = some (.obj va.modelDump) ∧
        (va.status.toStr = "clear" ∨ va.status.toStr = "inconclusive" ∨
          va.status.toStr = "multiple_subjects") ∧
        dget va.modelDump "status" = some (.str va.status.toStr) ∧
        dget va.modelDump "main_story" = some (.str va.main_story) ∧
        (dget va.modelDump "kitten_details" = some .null ∨
         ∃ l : List String, va.kitten_details = some l ∧
           dget va.modelDump "kitten_details" = some (.arr (l.map JVal.str)))) ∧
    (∀ (up : Uploaded) (n : Nat) (gp : GenParsed) (m : String),
      pw.uploadResult = .ok up →
      wait_until_ready cfg.uploadPollS cfg.processingMaxWaitS up.stateAt = .ok n →
      pw.genResult = .ok gp →
      parsedToVA gp = .error m →
      (analyze_video cfg pw shrunkPath origPath).1 = .error m) ∧
    (parsedToVA .noParsed =
      .error "ValueError: Gemini returned no parsed content (resp.parsed is None).") ∧
    (∀ d : Dict, parsedToVA (.asDict d) = VideoAnalysis.modelValidate d) ∧
    (∀ (d : Dict) (va : VideoAnalysis), VideoAnalysis.modelValidate d = .ok va →
      dget d "status" = some (.str va.status.toStr) ∧
      dget d "main_story" = some (.str va.main_story)) := by
  refine ⟨?_, ?_, rfl, fun d => rfl, fun d va h => modelValidate_sound d va h⟩
  · intro rec evs h
    obtain ⟨-, up, n, gp, va, -, -, -, -, hrec⟩ :=
      analyze_video_ok cfg pw shrunkPath origPath rec evs h
    obtain ⟨h1, h2, h3, h4⟩ := modelDump_shape va
    refine ⟨va, ?_, h3, h1, h2, h4⟩
    rw [hrec]
    rfl
  · intro up n gp m hup hwait hgen hpva
    simp [analyze_video, hup, hwait, hgen, hpva]

/-- C4 witness: a validated dict response and a rejected `None` response. -/
theorem c4_analyze_schema_witness :
    dget (successRec ⟨"/tmp", "m", 5, 600, false⟩
        ⟨false, 0, 0, .ok (), .ok ⟨some "u", fun _ => some "ACTIVE"⟩,
          .ok (.asDict [("status", .str "clear"), ("main_story", .str "S")]), "t"⟩
        ⟨some "u", fun _ => some "ACTIVE"⟩ ⟨.clear, "S", none⟩ "/tmp/s.mp4" "/v/cat.mp4")
      "analysis" = some (.obj (VideoAnalysis.modelDump ⟨.clear, "S", none⟩)) ∧
    (analyze_video ⟨"/tmp", "m", 5, 600, false⟩
        ⟨false, 0, 0, .ok (), .ok ⟨some "u", fun _ => some "ACTIVE"⟩,
          .ok .noParsed, "t"⟩ "/tmp/s.mp4" "/v/cat.mp4").1
      = .error "ValueError: Gemini returned no parsed content (resp.parsed is None)." := by
  constructor
  · rfl
  · exact (c4_analyze_schema ⟨"/tmp", "m", 5, 600, false⟩
      ⟨false, 0, 0, .ok (), .ok ⟨some "u", fun _ => some "ACTIVE"⟩,
        .ok .noParsed, "t"⟩ "/tmp/s.mp4" "/v/cat.mp4").2.1
      ⟨some "u", fun _ => some "ACTIVE"⟩ 0 .noParsed
      "ValueError: Gemini returned no parsed content (resp.parsed is None)."
      rfl rfl rfl rfl

end SunnyTabbies
